import Mathlib

/-!
# Verification of the STEP file splitter

A shallow embedding of `step_splitter.py`, a tool that splits STEP
(ISO 10303-21) assembly / multi-volume part files into one STEP file per
unique solid body plus a `name;count` report.

Modelling conventions:
* Python strings are `String`; the regex operations of the source
  (`#(\d+)` reference extraction and substitution, numeric-literal
  rewriting, first-quoted-string extraction) are embedded as character
  scanners over `String.data` with the same left-to-right,
  leftmost-longest semantics as the regexes of the source.
* Python `float` parsing plus `%.6g` formatting is embedded over exact
  rationals: a numeric literal is parsed exactly and formatted to six
  significant decimal digits (round half to even).  This agrees with the
  source wherever the double rounding of the binary float is invisible at
  six significant digits.
* `hashlib.md5` is embedded as a full implementation of MD5 (RFC 1321)
  over the UTF-8 bytes of the argument.
* `datetime.now()` is a parameter (`timestamp`) threaded to the one place
  the source uses it (`write_step_file`).
* File-system side effects are reified as an `Effect` list in the order
  the source performs them.
-/

namespace StepSplit

/-! ## Character-scanner utilities (the regex primitives of the source) -/

/-- Numeric value of a list of decimal digit characters, most significant
first (the value a regex group `(\d+)` denotes). -/
def digitsVal (l : List Char) : Nat :=
  l.foldl (fun acc c => acc * 10 + (c.toNat - 48)) 0

/-- Little-endian decimal digit characters of `n`, with explicit fuel so
that the definition is structural (and hence reduces in the kernel). -/
def natCharsAux : Nat → Nat → List Char
  | 0, _ => []
  | _, 0 => []
  | fuel + 1, n + 1 => Nat.digitChar ((n + 1) % 10) :: natCharsAux fuel ((n + 1) / 10)

/-- Decimal digit characters of `n`, most significant first
(the characters Python's `str(n)` produces for a nonnegative int). -/
def natChars (n : Nat) : List Char :=
  if n = 0 then ['0'] else (natCharsAux n n).reverse

/-- All `#<digits>` occurrences in a character list, in order
(`re.finditer(r'#(\d+)', line)` of the source).  The fuel argument makes
the recursion structural; the wrapper supplies `l.length`, which always
suffices because each step consumes at least one character. -/
def refScanF : Nat → List Char → List Nat
  | 0, _ => []
  | _ + 1, [] => []
  | fuel + 1, '#' :: rest =>
    let ds := rest.takeWhile Char.isDigit
    if ds.isEmpty then refScanF fuel rest
    else digitsVal ds :: refScanF fuel (rest.dropWhile Char.isDigit)
  | fuel + 1, _ :: rest => refScanF fuel rest

/-- `re.finditer(r'#(\d+)', line)`. -/
def refScan (l : List Char) : List Nat :=
  refScanF l.length l

/-- Fueled body of `refSub`. -/
def refSubF (f : Nat → Option Nat) : Nat → List Char → List Char
  | 0, l => l
  | _ + 1, [] => []
  | fuel + 1, '#' :: rest =>
    let ds := rest.takeWhile Char.isDigit
    if ds.isEmpty then '#' :: refSubF f fuel rest
    else
      (match f (digitsVal ds) with
       | some k => '#' :: natChars k
       | none => '#' :: ds) ++ refSubF f fuel (rest.dropWhile Char.isDigit)
  | fuel + 1, c :: rest => c :: refSubF f fuel rest

/-- Rewrite every `#<digits>` occurrence through `f`
(`re.sub(r'#(\d+)', repl, line)` of the source, where `repl` keeps the
digits when `f` keeps the number). -/
def refSub (f : Nat → Option Nat) (l : List Char) : List Char :=
  refSubF f l.length l

/-- Fueled body of `refMask`. -/
def refMaskF : Nat → List Char → List Char
  | 0, l => l
  | _ + 1, [] => []
  | fuel + 1, '#' :: rest =>
    let ds := rest.takeWhile Char.isDigit
    if ds.isEmpty then '#' :: refMaskF fuel rest
    else '#' :: 'R' :: 'E' :: 'F' :: refMaskF fuel (rest.dropWhile Char.isDigit)
  | fuel + 1, c :: rest => c :: refMaskF fuel rest

/-- Replace every `#<digits>` occurrence by the literal `#REF`
(`re.sub(r'#\d+', '#REF', content)` in `_normalize_entity`). -/
def refMask (l : List Char) : List Char :=
  refMaskF l.length l

/-- First `'...'` quoted group, possibly empty
(`re.search(r"'([^']*)'", s)` of the source). -/
def firstQuoted : List Char → Option (List Char)
  | [] => none
  | '\'' :: rest =>
    let inner := rest.takeWhile (fun c => c ≠ '\'')
    if inner.length < rest.length then some inner else none
  | _ :: rest => firstQuoted rest

/-- First nonempty `'...'` quoted group
(`re.search(r"'([^']+)'", s)`: an empty pair makes the engine backtrack and
retry from the closing quote). -/
def firstQuotedNonempty : List Char → Option (List Char)
  | [] => none
  | '\'' :: rest =>
    let inner := rest.takeWhile (fun c => c ≠ '\'')
    if inner.length < rest.length ∧ ¬ inner.isEmpty then some inner
    else firstQuotedNonempty rest
  | _ :: rest => firstQuotedNonempty rest

/-! ### Ascending duplicate-free lists as the model of Python's integer
sets.  Iteration order of a Python set is unspecified; the model fixes
ascending order (the derived results never depend on it). -/

/-- Insert into an ascending duplicate-free list. -/
def setInsert (x : Nat) : List Nat → List Nat
  | [] => [x]
  | y :: t =>
    if x < y then x :: y :: t
    else if x = y then y :: t
    else y :: setInsert x t

/-- Canonical ascending duplicate-free form of a list (the model of a
Python set of ints, and of `sorted(...)` applied to such a set). -/
def sortNats (l : List Nat) : List Nat :=
  l.foldl (fun acc x => setInsert x acc) []

/-- Set union on the ascending-list representation. -/
def setUnion (a b : List Nat) : List Nat :=
  b.foldl (fun acc x => setInsert x acc) a

/-! ## Numeric literal rewriting (`round_number` in `_normalize_entity`)

The source matches `-?\d+\.?\d*E?[+-]?\d*`, parses the match with `float`
and reformats it with `%.6g` (falling back to the original text when
`float` fails).  We embed the value as an exact rational. -/

/-- `(10 : Rat) ^ e` for an integer exponent. -/
def ratPow10 (e : Int) : Rat :=
  if 0 ≤ e then (10 : Rat) ^ e.toNat else 1 / (10 : Rat) ^ (-e).toNat

/-- Parse a matched numeric literal as Python's `float` would, `none`
when `float` raises (e.g. `12E`, `12+3`). -/
def parseNumLit (l : List Char) : Option Rat :=
  let (neg, l1) := match l with
    | '-' :: t => (true, t)
    | _ => (false, l)
  let ip := l1.takeWhile Char.isDigit
  let l2 := l1.dropWhile Char.isDigit
  if ip.isEmpty then none else
  let (fp, l3) := match l2 with
    | '.' :: t => (t.takeWhile Char.isDigit, t.dropWhile Char.isDigit)
    | _ => ([], l2)
  let mantissa : Rat := (digitsVal (ip ++ fp) : Nat)
  let mk : Int → Option Rat := fun e =>
    let q := mantissa * ratPow10 (e - fp.length)
    some (if neg then -q else q)
  match l3 with
  | [] => mk 0
  | 'E' :: t =>
    let (eneg, t1) := match t with
      | '-' :: u => (true, u)
      | '+' :: u => (false, u)
      | _ => (false, t)
    let ed := t1.takeWhile Char.isDigit
    let rest := t1.dropWhile Char.isDigit
    if ed.isEmpty ∨ ¬ rest.isEmpty then none
    else mk (if eneg then -(digitsVal ed : Int) else (digitsVal ed : Int))
  | _ => none

/-- Auxiliary search for the decimal exponent of `a < 1`: smallest `k`
(starting from the second argument) with `a * 10 ^ k ≥ 1`. -/
def negExpFind (a : Rat) : Nat → Nat → Nat
  | 0, k => k
  | fuel + 1, k => if 1 ≤ a * (10 : Rat) ^ k then k else negExpFind a fuel (k + 1)

/-- Largest `e` with `10 ^ e ≤ a`, for `a > 0`. -/
def ratLog10 (a : Rat) : Int :=
  if 1 ≤ a then (Nat.log 10 a.floor.toNat : Int)
  else - (negExpFind a (Nat.log 10 a.den + 2) 1)

/-- Drop trailing `'0'` characters. -/
def stripZeros (l : List Char) : List Char :=
  (l.reverse.dropWhile (fun c => c = '0')).reverse

/-- Python's `"%.6g" % q`, over exact rationals: six significant decimal
digits, round half to even, fixed notation for decimal exponents in
`[-4, 5]`, scientific notation (two-digit exponent minimum) otherwise. -/
def format6g (q : Rat) : String :=
  if q = 0 then "0" else
  let sgn := if q < 0 then "-" else ""
  let a := |q|
  let e0 := ratLog10 a
  let m0 := a * ratPow10 (5 - e0)
  let f := m0.floor.toNat
  let r := m0 - (f : Rat)
  let mr := if r < 1/2 then f else if 1/2 < r then f + 1
            else if f % 2 = 0 then f else f + 1
  let m := if mr = 10 ^ 6 then 10 ^ 5 else mr
  let e := if mr = 10 ^ 6 then e0 + 1 else e0
  let ds := natChars m
  if -4 ≤ e ∧ e < 6 then
    if 0 ≤ e then
      let ip := ds.take (e.toNat + 1)
      let fp := stripZeros (ds.drop (e.toNat + 1))
      sgn ++ ip.asString ++ (if fp.isEmpty then "" else "." ++ fp.asString)
    else
      sgn ++ "0." ++ (List.replicate ((-e).toNat - 1) '0').asString
          ++ (stripZeros ds).asString
  else
    let tl := stripZeros ds.tail
    let mant := [ds.headD '0'].asString
        ++ (if tl.isEmpty then "" else "." ++ tl.asString)
    let eabs := (if e < 0 then -e else e).toNat
    let ed0 := natChars eabs
    let ed := if ed0.length < 2 then '0' :: ed0 else ed0
    sgn ++ mant ++ "e" ++ (if e < 0 then "-" else "+") ++ ed.asString

/-- Number of characters the regex `-?\d+\.?\d*E?[+-]?\d*` consumes at the
start of `l` (assuming a match starts there). -/
def numLen (l : List Char) : Nat :=
  let (s1, l1) := match l with
    | '-' :: t => (1, t)
    | _ => (0, l)
  let d1 := (l1.takeWhile Char.isDigit).length
  let l2 := l1.dropWhile Char.isDigit
  let (s2, l3) := match l2 with
    | '.' :: t => (1, t)
    | _ => (0, l2)
  let d2 := (l3.takeWhile Char.isDigit).length
  let l4 := l3.dropWhile Char.isDigit
  let (s3, l5) := match l4 with
    | 'E' :: t => (1, t)
    | _ => (0, l4)
  let (s4, l6) := match l5 with
    | '+' :: t => (1, t)
    | '-' :: t => (1, t)
    | _ => (0, l5)
  let d3 := (l6.takeWhile Char.isDigit).length
  s1 + d1 + s2 + d2 + s3 + s4 + d3

/-- Rewrite one matched numeric token (`round_number` of the source):
reformat via `float` + `%.6g`, or keep the text when parsing fails. -/
def numApply (tok : List Char) : List Char :=
  match parseNumLit tok with
  | some q => (format6g q).data
  | none => tok

/-- Whether a match of the numeric regex starts at this character. -/
def numStart (c : Char) (rest : List Char) : Bool :=
  c.isDigit || (c = '-' && (rest.headD ' ').isDigit)

/-- `re.sub(r'-?\d+\.?\d*E?[+-]?\d*', round_number, s)` of
`_normalize_entity`: left-to-right, greedy per match. -/
def numSubF : Nat → List Char → List Char
  | 0, l => l
  | _ + 1, [] => []
  | fuel + 1, c :: rest =>
    if numStart c rest then
      -- Under `numStart`, `numLen (c :: rest) ≥ 1` (the sign or first digit
      -- is consumed), so dropping `numLen - 1` from `rest` is dropping
      -- `numLen` from `c :: rest`.
      let n := numLen (c :: rest)
      numApply ((c :: rest).take n) ++ numSubF fuel (rest.drop (n - 1))
    else c :: numSubF fuel rest

def numSub (l : List Char) : List Char :=
  numSubF l.length l

/-! ## MD5 (RFC 1321), the `hashlib.md5(...).hexdigest()` of the source -/

/-- 32-bit left rotation (operand assumed `< 2 ^ 32`). -/
def rotl32 (x n : Nat) : Nat :=
  ((x <<< n) % 4294967296) ||| (x >>> (32 - n))

/-- Bitwise complement within 32 bits (operand assumed `< 2 ^ 32`). -/
def not32 (x : Nat) : Nat := 4294967295 - x

/-- The 64 MD5 sine-derived constants. -/
def md5K : List Nat :=
  [0xd76aa478, 0xe8c7b756, 0x242070db, 0xc1bdceee, 0xf57c0faf, 0x4787c62a, 0xa8304613, 0xfd469501,
   0x698098d8, 0x8b44f7af, 0xffff5bb1, 0x895cd7be, 0x6b901122, 0xfd987193, 0xa679438e, 0x49b40821,
   0xf61e2562, 0xc040b340, 0x265e5a51, 0xe9b6c7aa, 0xd62f105d, 0x02441453, 0xd8a1e681, 0xe7d3fbc8,
   0x21e1cde6, 0xc33707d6, 0xf4d50d87, 0x455a14ed, 0xa9e3e905, 0xfcefa3f8, 0x676f02d9, 0x8d2a4c8a,
   0xfffa3942, 0x8771f681, 0x6d9d6122, 0xfde5380c, 0xa4beea44, 0x4bdecfa9, 0xf6bb4b60, 0xbebfbc70,
   0x289b7ec6, 0xeaa127fa, 0xd4ef3085, 0x04881d05, 0xd9d4d039, 0xe6db99e5, 0x1fa27cf8, 0xc4ac5665,
   0xf4292244, 0x432aff97, 0xab9423a7, 0xfc93a039, 0x655b59c3, 0x8f0ccc92, 0xffeff47d, 0x85845dd1,
   0x6fa87e4f, 0xfe2ce6e0, 0xa3014314, 0x4e0811a1, 0xf7537e82, 0xbd3af235, 0x2ad7d2bb, 0xeb86d391]

/-- The 64 per-round rotation amounts. -/
def md5S : List Nat :=
  [7, 12, 17, 22, 7, 12, 17, 22, 7, 12, 17, 22, 7, 12, 17, 22,
   5, 9, 14, 20, 5, 9, 14, 20, 5, 9, 14, 20, 5, 9, 14, 20,
   4, 11, 16, 23, 4, 11, 16, 23, 4, 11, 16, 23, 4, 11, 16, 23,
   6, 10, 15, 21, 6, 10, 15, 21, 6, 10, 15, 21, 6, 10, 15, 21]

/-- The nonlinear function of round `i` applied to `(b, c, d)`. -/
def md5Mix (i b c d : Nat) : Nat :=
  if i < 16 then (b &&& c) ||| (not32 b &&& d)
  else if i < 32 then (d &&& b) ||| (not32 d &&& c)
  else if i < 48 then b ^^^ c ^^^ d
  else c ^^^ (b ||| not32 d)

/-- The message-word index of round `i`. -/
def md5Idx (i : Nat) : Nat :=
  if i < 16 then i
  else if i < 32 then (5 * i + 1) % 16
  else if i < 48 then (3 * i + 5) % 16
  else (7 * i) % 16

/-- One MD5 round step on state `(a, b, c, d)` with message words `m`. -/
def md5Step (m : List Nat) (i : Nat) : Nat × Nat × Nat × Nat → Nat × Nat × Nat × Nat
  | (a, b, c, d) =>
    let f := (md5Mix i b c d + a + md5K.getD i 0 + m.getD (md5Idx i) 0) % 4294967296
    (d, (b + rotl32 f (md5S.getD i 0)) % 4294967296, b, c)

/-- Iterate `md5Step` for the given number of remaining rounds. -/
def md5Rounds (m : List Nat) : Nat → Nat → Nat × Nat × Nat × Nat → Nat × Nat × Nat × Nat
  | _, 0, st => st
  | i, rem + 1, st => md5Rounds m (i + 1) rem (md5Step m i st)

/-- Split a byte list into little-endian 32-bit words, four bytes each. -/
def md5Words : List Nat → List Nat
  | b0 :: b1 :: b2 :: b3 :: rest =>
    (b0 + 256 * b1 + 65536 * b2 + 16777216 * b3) :: md5Words rest
  | _ => []

/-- Low `n` bytes of `x`, little-endian. -/
def leBytes : Nat → Nat → List Nat
  | 0, _ => []
  | n + 1, x => (x % 256) :: leBytes n (x / 256)

/-- Process one 64-byte block, updating the running state. -/
def md5Block (h : Nat × Nat × Nat × Nat) (block : List Nat) : Nat × Nat × Nat × Nat :=
  let (a0, b0, c0, d0) := h
  let (a, b, c, d) := md5Rounds (md5Words block) 0 64 (a0, b0, c0, d0)
  ((a0 + a) % 4294967296, (b0 + b) % 4294967296, (c0 + c) % 4294967296, (d0 + d) % 4294967296)

/-- Fueled body of `chunks64`. -/
def chunks64F : Nat → List Nat → List (List Nat)
  | 0, _ => []
  | _ + 1, [] => []
  | fuel + 1, a :: t => (a :: t).take 64 :: chunks64F fuel ((a :: t).drop 64)

/-- Split a list into 64-element chunks. -/
def chunks64 (l : List Nat) : List (List Nat) :=
  chunks64F l.length l

/-- MD5 padding: a `0x80` byte, zeros to 56 mod 64, then the 64-bit
little-endian bit length. -/
def md5Pad (msg : List Nat) : List Nat :=
  let k := (56 + 64 - ((msg.length + 1) % 64)) % 64
  msg ++ 0x80 :: List.replicate k 0 ++ leBytes 8 ((msg.length * 8) % 18446744073709551616)

/-- The 16-byte MD5 digest of a byte list. -/
def md5Bytes (msg : List Nat) : List Nat :=
  let init : Nat × Nat × Nat × Nat := (0x67452301, 0xefcdab89, 0x98badcfe, 0x10325476)
  let (a, b, c, d) := (chunks64 (md5Pad msg)).foldl md5Block init
  leBytes 4 a ++ leBytes 4 b ++ leBytes 4 c ++ leBytes 4 d

/-- UTF-8 encoding of one character (Python's `str.encode()` per char). -/
def utf8Bytes (c : Char) : List Nat :=
  let n := c.toNat
  if n < 0x80 then [n]
  else if n < 0x800 then [0xC0 + n / 64, 0x80 + n % 64]
  else if n < 0x10000 then [0xE0 + n / 4096, 0x80 + n / 64 % 64, 0x80 + n % 64]
  else [0xF0 + n / 262144, 0x80 + n / 4096 % 64, 0x80 + n / 64 % 64, 0x80 + n % 64]

/-- Lowercase-hex rendering of one byte. -/
def hexByte (b : Nat) : List Char :=
  [Nat.digitChar (b / 16 % 16), Nat.digitChar (b % 16)]

/-- `hashlib.md5(s.encode()).hexdigest()` of the source. -/
def md5Hex (s : String) : String :=
  ((md5Bytes (s.data.flatMap utf8Bytes)).flatMap hexByte).asString

/-! ### Structural string helpers (kernel-reducible stand-ins for the
Python string methods used by the source) -/

/-- Lexicographic `≤` on code-point lists (Python's string comparison). -/
def charListLe : List Char → List Char → Bool
  | [], _ => true
  | _ :: _, [] => false
  | a :: s, b :: t =>
    if a.toNat < b.toNat then true
    else if b.toNat < a.toNat then false
    else charListLe s t

/-- Python's `≤` on strings: lexicographic on code points. -/
def strLe (a b : String) : Bool :=
  charListLe a.data b.data

/-- `strLe` as a relation (the ordering used by `list.sort()` /
`sorted(...)` on strings in the source). -/
def strLeProp (a b : String) : Prop :=
  strLe a b = true

instance : DecidableRel strLeProp :=
  fun a b => instDecidableEqBool (strLe a b) true

/-- The report rows are sorted by their name component
(`sorted(..., key=lambda x: x[0])`). -/
def rowLe {β : Type} (a b : String × β) : Prop :=
  strLe a.1 b.1 = true

instance {β : Type} : DecidableRel (rowLe (β := β)) :=
  fun a b => instDecidableEqBool (strLe a.1 b.1) true

/-- Python `'sep'.join(...)` for a one-or-more-character separator. -/
def joinSep (sep : String) : List String → String
  | [] => ""
  | [x] => x
  | x :: xs => x ++ sep ++ joinSep sep xs

/-- Python `str.upper()` (ASCII case mapping). -/
def pyUpper (s : String) : String :=
  (s.data.map Char.toUpper).asString

/-- Python `str.strip()`. -/
def pyStrip (s : String) : String :=
  (((s.data.dropWhile Char.isWhitespace).reverse.dropWhile Char.isWhitespace).reverse).asString

/-- Python `str.split('\n')`. -/
def splitLinesAux : List Char → List (List Char)
  | [] => [[]]
  | '\n' :: rest => [] :: splitLinesAux rest
  | c :: rest =>
    match splitLinesAux rest with
    | [] => [[c]]
    | h :: t => (c :: h) :: t

/-- Python `content.split('\n')` on a string. -/
def splitLines (s : String) : List String :=
  (splitLinesAux s.data).map List.asString

/-! ## Data model: `StepEntity`, `StepParser` -/

/-- A parsed STEP entity: id, type tag, argument payload, and the full
(joined) record text. -/
structure StepEntity where
  id : Nat
  type : String
  content : String
  full_line : String
deriving DecidableEq, Repr

/-- `_parse_references`: all `#<digits>` of the record text, as a set
(ascending duplicate-free list), minus the self id. -/
def StepEntity.references (e : StepEntity) : List Nat :=
  (sortNats (refScan e.full_line.data)).filter (fun r => r ≠ e.id)

/-- The parsed store: unparsed header text, input-file stem, and the
entities in insertion order (Python's `OrderedDict`). -/
structure StepParser where
  header : String
  originalFilename : String
  entities : List StepEntity
deriving DecidableEq, Repr

/-- Dictionary lookup `self.entities.get(i)`. -/
def StepParser.lookup (p : StepParser) (i : Nat) : Option StepEntity :=
  p.entities.find? (fun e => e.id == i)

/-- `i in self.entities`. -/
def StepParser.present (p : StepParser) (i : Nat) : Bool :=
  (p.lookup i).isSome

/-- `OrderedDict` assignment: overwrite in place when the id exists,
append otherwise. -/
def StepParser.insertEntity (p : StepParser) (e : StepEntity) : StepParser :=
  if p.entities.any (fun x => x.id == e.id) then
    { p with entities := p.entities.map (fun x => if x.id == e.id then e else x) }
  else
    { p with entities := p.entities ++ [e] }

/-- `find_entities_by_type`: ids of entities of the given type, in
insertion order. -/
def StepParser.find_entities_by_type (p : StepParser) (t : String) : List Nat :=
  (p.entities.filter (fun e => e.type == t)).map (fun e => e.id)

/-- Upper bound on worklist pops in `get_transitive_dependencies`:
one per entity plus one per outgoing reference, plus the seed. -/
def StepParser.traversalFuel (p : StepParser) : Nat :=
  p.entities.length + (p.entities.map (fun e => e.references.length)).sum + 2

/-- Worklist loop of `get_transitive_dependencies`: pop, mark visited,
push unvisited present references.  The final visited set does not depend
on the traversal order. -/
def transDepsAux (p : StepParser) : Nat → List Nat → List Nat → List Nat
  | 0, _, visited => visited
  | _ + 1, [], visited => visited
  | fuel + 1, cur :: rest, visited =>
    if cur ∈ visited then transDepsAux p fuel rest visited
    else
      let visited' := setInsert cur visited
      let pushes :=
        match p.lookup cur with
        | some e => e.references.filter (fun r => !visited'.contains r && p.present r)
        | none => []
      transDepsAux p fuel (pushes ++ rest) visited'

/-- `get_transitive_dependencies`: the seed id plus everything reachable
from it through `references`, restricted to present ids (as an ascending
duplicate-free list). -/
def StepParser.get_transitive_dependencies (p : StepParser) (i : Nat) : List Nat :=
  transDepsAux p p.traversalFuel [i] []

/-- `get_referencing_entities`: ids of entities whose references contain
the given id. -/
def StepParser.get_referencing_entities (p : StepParser) (i : Nat) : List Nat :=
  sortNats (((p.entities.filter (fun e => (e.references.contains i))).map (fun e => e.id)))

/-! ## Text-level parsing (`StepParser.parse`, `_parse_entities`,
`_parse_entity_line`) -/

/-- Split at the first occurrence of `pat`: `some (before, after)` with
`l = before ++ pat ++ after`. -/
def splitOnSub (pat : List Char) : List Char → Option (List Char × List Char)
  | [] => if pat.isEmpty then some ([], []) else none
  | c :: rest =>
    if pat.isPrefixOf (c :: rest) then some ([], (c :: rest).drop pat.length)
    else (splitOnSub pat rest).map (fun q => (c :: q.1, q.2))

/-- `re.search(r'TAG(.*?)ENDSEC;', content, re.DOTALL)`: text between the
first occurrence of `tag` and the nearest following `ENDSEC;`. -/
def findSection (tag content : String) : Option String :=
  match splitOnSub tag.data content.data with
  | none => none
  | some (_, rest) =>
    match splitOnSub "ENDSEC;".data rest with
    | none => none
    | some (inner, _) => some inner.asString

/-- A character of the `[A-Z_0-9]` class of the entity-type regexes. -/
def isTypeChar (c : Char) : Bool :=
  ('A' ≤ c && c ≤ 'Z') || c = '_' || c.isDigit

/-- Whether position `i` of `l` starts `)` + whitespace + `;` (the
`\)\s*;` tail of the entity-record regexes). -/
def closeSemiAt (l : List Char) (i : Nat) : Bool :=
  match l.drop i with
  | ')' :: rest => (rest.dropWhile Char.isWhitespace).headD ' ' = ';'
  | _ => false

/-- Content captured by the greedy `(.*)\)\s*;`: everything before the
last `)` that is followed by whitespace then `;`. -/
def greedyContent (l : List Char) : Option (List Char) :=
  ((List.range l.length).reverse.find? (fun i => closeSemiAt l i)).map (fun i => l.take i)

/-- First maximal `[A-Z_0-9]+` run (`re.search` in the complex-record
branch). -/
def firstTypeRun : List Char → Option (List Char)
  | [] => none
  | c :: rest =>
    if isTypeChar c then some (c :: rest.takeWhile isTypeChar)
    else firstTypeRun rest

/-- `_parse_entity_line`: match the simple-record regex
`#(\d+)\s*=\s*([A-Z_0-9]+)\s*\((.*)\)\s*;`, falling back to the
complex-record regex `#(\d+)\s*=\s*\((.*)\)\s*;`; `none` when both fail
(the record is silently dropped). -/
def parseEntityLine (line : String) : Option StepEntity :=
  match line.data with
  | '#' :: r =>
    let ds := r.takeWhile Char.isDigit
    if ds.isEmpty then none else
    let eid := digitsVal ds
    match (r.dropWhile Char.isDigit).dropWhile Char.isWhitespace with
    | '=' :: r2 =>
      let r3 := r2.dropWhile Char.isWhitespace
      let ty := r3.takeWhile isTypeChar
      let simple : Option StepEntity :=
        if ty.isEmpty then none else
        match (r3.drop ty.length).dropWhile Char.isWhitespace with
        | '(' :: r5 =>
          (greedyContent r5).map (fun content =>
            ⟨eid, ty.asString, content.asString, line⟩)
        | _ => none
      match simple with
      | some e => some e
      | none =>
        match r3 with
        | '(' :: r5 =>
          (greedyContent r5).map (fun content =>
            let ty2 := match firstTypeRun content with
              | some run => run.asString
              | none => "COMPLEX"
            ⟨eid, ty2, content.asString, line⟩)
        | _ => none
    | _ => none
  | _ => none

/-- `_parse_entities`: accumulate records line by line (a record starts at
a stripped line beginning with `#` and ends when the running parenthesis
depth is `≤ 0` and the line contains `;`), join with single spaces, parse
each record, silently dropping failures. -/
def parseEntitiesStep (st : StepParser × Bool × List String × Int) (rawLine : String) :
    StepParser × Bool × List String × Int :=
  let (q, inE, cur, depth) := st
  let line := pyStrip rawLine
  if line.data.isEmpty then st else
  let (inE1, cur1, depth1) :=
    if ¬ inE ∧ line.data.headD ' ' = '#' then
      (true, [line], (line.data.count '(' : Int) - (line.data.count ')' : Int))
    else if inE then
      (inE, cur ++ [line],
       depth + (line.data.count '(' : Int) - (line.data.count ')' : Int))
    else (inE, cur, depth)
  if inE1 ∧ depth1 ≤ 0 ∧ line.data.contains ';' then
    let entityStr := joinSep " " cur1
    let q1 := match parseEntityLine entityStr with
      | some e => q.insertEntity e
      | none => q
    (q1, false, [], 0)
  else (q, inE1, cur1, depth1)

def StepParser.parseEntities (p : StepParser) (dataSection : String) : StepParser :=
  ((splitLines dataSection).foldl parseEntitiesStep (p, false, [], 0)).1

/-- `StepParser.parse`, given the input-file stem and the file text
(read with undecodable bytes replaced): extract the header, fail if and
only if no `DATA;…ENDSEC;` span exists, otherwise parse the data
section's records. -/
def StepParser.parse (stem content : String) : Except String StepParser :=
  let p0 : StepParser := { header := "", originalFilename := stem, entities := [] }
  let p1 := match findSection "HEADER;" content with
    | some h => { p0 with header := h }
    | none => p0
  match findSection "DATA;" content with
  | none => Except.error "Invalid STEP file: DATA section not found"
  | some dataSection => Except.ok (p1.parseEntities dataSection)

/-! ## Emitter (`StepWriter`) -/

/-- The `FILE_SCHEMA` constant of the source. -/
def FILE_SCHEMA : String :=
  "'AP203_CONFIGURATION_CONTROLLED_3D_DESIGN_OF_MECHANICAL_PARTS_AND_ASSEMBLIES_MIM_LF \x7b 1 0 10303 403 2 1 2 \x7d'"

/-- `id_mapping = {old: new for new, old in enumerate(sorted_ids, 1)}`. -/
def idMapping (sortedIds : List Nat) (old : Nat) : Option Nat :=
  ((sortedIds.enumFrom 1).find? (fun q => q.2 == old)).map (fun q => q.1)

/-- `_renumber_references`: every `#<digits>` is rewritten through the
map; ids not in the map are left unchanged. -/
def StepWriter.renumber_references (m : Nat → Option Nat) (line : String) : String :=
  (refSub (fun n => m n) line.data).asString

/-- `write_step_file` as the list of output lines.  `datetime.now()` is
the `timestamp` parameter. -/
def StepWriter.write_step_file (partName : String) (entityIds : List Nat)
    (p : StepParser) (timestamp : String) : List String :=
  let sortedIds := sortNats entityIds
  let m := idMapping sortedIds
  ["ISO-10303-21;",
   "HEADER;",
   "FILE_DESCRIPTION((''),'2;1');",
   "FILE_NAME('" ++ pyUpper partName ++ "','" ++ timestamp
     ++ "',(''),(''),'STEP SPLITTER','STEP SPLITTER','');",
   "FILE_SCHEMA((",
   FILE_SCHEMA ++ "));",
   "ENDSEC;",
   "DATA;"]
  ++ sortedIds.filterMap (fun old =>
      (p.lookup old).map (fun e => StepWriter.renumber_references m e.full_line))
  ++ ["ENDSEC;", "END-ISO-10303-21;"]

/-- The file content written by `write_step_file` (`'\n'.join(lines)`). -/
def StepWriter.contentOf (partName : String) (entityIds : List Nat)
    (p : StepParser) (timestamp : String) : String :=
  joinSep "\n" (StepWriter.write_step_file partName entityIds p timestamp)

/-! ## Geometry hasher (`GeometryHasher`) -/

/-- The geometric-entity whitelist. -/
def geometricTypes : List String :=
  ["CARTESIAN_POINT", "DIRECTION", "VECTOR", "LINE", "CIRCLE", "ELLIPSE",
   "B_SPLINE_CURVE", "B_SPLINE_SURFACE", "PLANE", "CYLINDRICAL_SURFACE",
   "CONICAL_SURFACE", "SPHERICAL_SURFACE", "TOROIDAL_SURFACE",
   "AXIS2_PLACEMENT_3D", "AXIS1_PLACEMENT", "VERTEX_POINT", "EDGE_CURVE",
   "ORIENTED_EDGE", "EDGE_LOOP", "FACE_OUTER_BOUND", "FACE_BOUND",
   "ADVANCED_FACE", "CLOSED_SHELL", "OPEN_SHELL", "MANIFOLD_SOLID_BREP"]

/-- `_normalize_entity`: mask references to `#REF`, rewrite numeric
literals, wrap in the entity type. -/
def GeometryHasher.normalize_entity (e : StepEntity) : String :=
  e.type ++ "(" ++ (numSub (refMask e.content.data)).asString ++ ")"

/-- The normalised strings of the whitelisted entities reachable from the
solid, in ascending-id order (the `geo_content` list before its final
sort; `get_transitive_dependencies` already yields ascending order, which
is `sorted(deps)`). -/
def GeometryHasher.geoContent (p : StepParser) (solidId : Nat) : List String :=
  (p.get_transitive_dependencies solidId).filterMap (fun eid =>
    match p.lookup eid with
    | some e =>
      if geometricTypes.contains e.type then some (GeometryHasher.normalize_entity e)
      else none
    | none => none)

/-- `compute_geometry_hash`: sort the normalised strings, join with
newlines, MD5. -/
def GeometryHasher.compute_geometry_hash (p : StepParser) (solidId : Nat) : String :=
  md5Hex (joinSep "\n"
    ((GeometryHasher.geoContent p solidId).insertionSort strLeProp))

/-! ## Splitter (`StepSplitter`) -/

/-- Iteration over an entity's reference set (`for ref in x.references`);
the representation is already ascending. -/
def refsSorted (e : StepEntity) : List Nat :=
  e.references

/-- `_sanitize_filename`: any character outside `[a-zA-Z0-9_-]` becomes
`_`. -/
def StepSplitter.sanitize_filename (name : String) : String :=
  (name.data.map (fun c =>
    if c.isAlpha || c.isDigit || c = '_' || c = '-' then c else '_')).asString

/-- `_get_solid_name`: the first quoted string of a
`MANIFOLD_SOLID_BREP`'s payload, stripped, when nonempty. -/
def StepSplitter.get_solid_name (p : StepParser) (solidId : Nat) : Option String :=
  match p.lookup solidId with
  | some e =>
    if e.type = "MANIFOLD_SOLID_BREP" then
      match firstQuoted e.content.data with
      | some inner =>
        let name := pyStrip inner.asString
        if name.data.isEmpty then none else some name
      | none => none
    else none
  | none => none

/-- `_get_product_definition_from_sdr`: SDR → `PRODUCT_DEFINITION_SHAPE`
→ first `PRODUCT_DEFINITION`. -/
def StepSplitter.get_product_definition_from_sdr (p : StepParser) (sdr : StepEntity) :
    Option StepEntity :=
  (refsSorted sdr).findSome? (fun ref =>
    match p.lookup ref with
    | some pds =>
      if pds.type = "PRODUCT_DEFINITION_SHAPE" then
        (refsSorted pds).findSome? (fun pdsRef =>
          match p.lookup pdsRef with
          | some pd => if pd.type = "PRODUCT_DEFINITION" then some pd else none
          | none => none)
      else none
    | none => none)

/-- `_find_product_definition_entity_for_solid`: for each
`ADVANCED_BREP_SHAPE_REPRESENTATION` containing the solid, try the direct
SDR route, then the `SHAPE_REPRESENTATION_RELATIONSHIP` route. -/
def StepSplitter.find_product_definition_entity_for_solid (p : StepParser)
    (solidId : Nat) : Option StepEntity :=
  (p.find_entities_by_type "ADVANCED_BREP_SHAPE_REPRESENTATION").findSome? (fun abrepId =>
    match p.lookup abrepId with
    | some abrep =>
      if solidId ∈ abrep.references then
        let method1 :=
          (p.find_entities_by_type "SHAPE_DEFINITION_REPRESENTATION").findSome? (fun sdrId =>
            match p.lookup sdrId with
            | some sdr =>
              if abrepId ∈ sdr.references then
                StepSplitter.get_product_definition_from_sdr p sdr
              else none
            | none => none)
        match method1 with
        | some pd => some pd
        | none =>
          (p.find_entities_by_type "SHAPE_REPRESENTATION_RELATIONSHIP").findSome? (fun srrId =>
            match p.lookup srrId with
            | some srr =>
              if abrepId ∈ srr.references then
                (refsSorted srr).findSome? (fun shapeRepId =>
                  if shapeRepId = abrepId then none else
                  match p.lookup shapeRepId with
                  | some shapeRep =>
                    if shapeRep.type = "SHAPE_REPRESENTATION" then
                      (p.find_entities_by_type "SHAPE_DEFINITION_REPRESENTATION").findSome?
                        (fun sdrId =>
                          match p.lookup sdrId with
                          | some sdr =>
                            if shapeRepId ∈ sdr.references then
                              StepSplitter.get_product_definition_from_sdr p sdr
                            else none
                          | none => none)
                    else none
                  | none => none)
              else none
            | none => none)
      else none
    | none => none)

/-- `_extract_product_name`: PD → `PRODUCT_DEFINITION_FORMATION_WITH_SPECIFIED_SOURCE`
→ `PRODUCT` → first nonempty quoted string. -/
def StepSplitter.extract_product_name (p : StepParser) (productDef : StepEntity) :
    Option String :=
  (refsSorted productDef).findSome? (fun ref =>
    match p.lookup ref with
    | some pdf =>
      if pdf.type = "PRODUCT_DEFINITION_FORMATION_WITH_SPECIFIED_SOURCE" then
        (refsSorted pdf).findSome? (fun prodRef =>
          match p.lookup prodRef with
          | some product =>
            if product.type = "PRODUCT" then
              (firstQuotedNonempty product.content.data).map List.asString
            else none
          | none => none)
      else none
    | none => none)

/-- `_find_product_for_solid`. -/
def StepSplitter.find_product_for_solid (p : StepParser) (solidId : Nat) : Option String :=
  (StepSplitter.find_product_definition_entity_for_solid p solidId).bind
    (StepSplitter.extract_product_name p)

/-- `_find_product_definition_for_solid`. -/
def StepSplitter.find_product_definition_for_solid (p : StepParser) (solidId : Nat) :
    Option Nat :=
  (StepSplitter.find_product_definition_entity_for_solid p solidId).map (fun e => e.id)

/-! ## Dependency collector -/

/-- `_add_sdr_chain`: descend SDR → PDS → PD, adding the PD's reachable
closure plus any `PROPERTY_DEFINITION` / `PROPERTY_DEFINITION_REPRESENTATION`
chains that reference the PD. -/
def StepSplitter.add_sdr_chain (p : StepParser) (acc : List Nat) (sdr : StepEntity) :
    List Nat :=
  (refsSorted sdr).foldl (fun acc1 ref =>
    match p.lookup ref with
    | some pds =>
      if pds.type = "PRODUCT_DEFINITION_SHAPE" then
        (refsSorted pds).foldl (fun acc2 pdsRef =>
          match p.lookup pdsRef with
          | some pd =>
            if pd.type = "PRODUCT_DEFINITION" then
              let acc3 := setUnion (setInsert pd.id acc2) (p.get_transitive_dependencies pd.id)
              (p.find_entities_by_type "PROPERTY_DEFINITION").foldl (fun acc4 propId =>
                match p.lookup propId with
                | some prop =>
                  if pd.id ∈ prop.references then
                    let acc5 := setUnion (setInsert propId acc4) (p.get_transitive_dependencies propId)
                    (p.find_entities_by_type "PROPERTY_DEFINITION_REPRESENTATION").foldl
                      (fun acc6 pdrId =>
                        match p.lookup pdrId with
                        | some pdr =>
                          if propId ∈ pdr.references then
                            setUnion (setInsert pdrId acc6) (p.get_transitive_dependencies pdrId)
                          else acc6
                        | none => acc6) acc5
                  else acc4
                | none => acc4) acc3
            else acc2
          | none => acc2) (setInsert pds.id acc1)
      else acc1
    | none => acc1) acc

/-- Method-2 inner loop of `_add_product_structure`: walk the SRR's other
references looking for a `SHAPE_REPRESENTATION` with an SDR; additions
made before a failed attempt are kept.  Returns the grown set and whether
the walk returned early. -/
def StepSplitter.srrInner (p : StepParser) (abrepId : Nat) :
    List Nat → List Nat → List Nat × Bool
  | [], acc => (acc, false)
  | shapeRepId :: rest, acc =>
    if shapeRepId = abrepId then StepSplitter.srrInner p abrepId rest acc else
    match p.lookup shapeRepId with
    | some shapeRep =>
      if shapeRep.type = "SHAPE_REPRESENTATION" then
        let acc1 := setUnion (setInsert shapeRepId acc) (p.get_transitive_dependencies shapeRepId)
        let sdrHit :=
          (p.find_entities_by_type "SHAPE_DEFINITION_REPRESENTATION").find? (fun sdrId =>
            match p.lookup sdrId with
            | some sdr => shapeRepId ∈ sdr.references
            | none => false)
        match sdrHit with
        | some sdrId =>
          match p.lookup sdrId with
          | some sdr => (StepSplitter.add_sdr_chain p (setInsert sdrId acc1) sdr, true)
          | none => StepSplitter.srrInner p abrepId rest acc1
        | none => StepSplitter.srrInner p abrepId rest acc1
      else StepSplitter.srrInner p abrepId rest acc
    | none => StepSplitter.srrInner p abrepId rest acc

/-- Method-2 outer loop of `_add_product_structure` over all
`SHAPE_REPRESENTATION_RELATIONSHIP` entities (each matching SRR id is
added even when its walk fails). -/
def StepSplitter.srrLoop (p : StepParser) (abrepId : Nat) :
    List Nat → List Nat → List Nat
  | [], acc => acc
  | srrId :: rest, acc =>
    match p.lookup srrId with
    | some srr =>
      if abrepId ∈ srr.references then
        let (acc1, done) := StepSplitter.srrInner p abrepId (refsSorted srr) (setInsert srrId acc)
        if done then acc1 else StepSplitter.srrLoop p abrepId rest acc1
      else StepSplitter.srrLoop p abrepId rest acc
    | none => StepSplitter.srrLoop p abrepId rest acc

/-- `_add_product_structure`: the product wrapper for the solid's ABSR —
first SDR referencing the ABSR directly, else via
`SHAPE_REPRESENTATION_RELATIONSHIP`. -/
def StepSplitter.add_product_structure (p : StepParser) (acc : List Nat)
    (abrepId? : Option Nat) : List Nat :=
  match abrepId? with
  | none => acc
  | some abrepId =>
    let direct :=
      (p.find_entities_by_type "SHAPE_DEFINITION_REPRESENTATION").find? (fun sdrId =>
        match p.lookup sdrId with
        | some sdr => abrepId ∈ sdr.references
        | none => false)
    match direct with
    | some sdrId =>
      match p.lookup sdrId with
      | some sdr => StepSplitter.add_sdr_chain p (setInsert sdrId acc) sdr
      | none => acc
    | none =>
      StepSplitter.srrLoop p abrepId
        (p.find_entities_by_type "SHAPE_REPRESENTATION_RELATIONSHIP") acc

/-- `_add_styled_items_for_solid`: every `STYLED_ITEM` referencing the
solid, plus (for its other references) the reference and its reachable
closure. -/
def StepSplitter.add_styled_items_for_solid (p : StepParser) (acc : List Nat)
    (solidId : Nat) : List Nat :=
  (p.find_entities_by_type "STYLED_ITEM").foldl (fun acc1 styledItemId =>
    match p.lookup styledItemId with
    | some styledItem =>
      if solidId ∈ styledItem.references then
        (refsSorted styledItem).foldl (fun acc2 ref =>
          if ref ≠ solidId then setUnion (setInsert ref acc2) (p.get_transitive_dependencies ref)
          else acc2) (setInsert styledItemId acc1)
      else acc1
    | none => acc1) acc

/-- `_collect_solid_dependencies`: geometry closure, the first ABSR
containing the solid with its other references and their closures
(without a presence check), the product wrapper, and per-solid styling
(also without a presence check). -/
def StepSplitter.collect_solid_dependencies (p : StepParser) (solidId : Nat) : List Nat :=
  let required := p.get_transitive_dependencies solidId
  let abrepFound :=
    (p.find_entities_by_type "ADVANCED_BREP_SHAPE_REPRESENTATION").find? (fun aId =>
      match p.lookup aId with
      | some a => solidId ∈ a.references
      | none => false)
  let required := match abrepFound with
    | some abrepId =>
      match p.lookup abrepId with
      | some abrep =>
        (refsSorted abrep).foldl (fun acc ref =>
          if ref ≠ solidId then setUnion (setInsert ref acc) (p.get_transitive_dependencies ref)
          else acc) (setInsert abrepId required)
      | none => required
    | none => required
  let required := StepSplitter.add_product_structure p required abrepFound
  StepSplitter.add_styled_items_for_solid p required solidId

/-! ## Orchestrator -/

/-- `part_occurrence_count[pdId]` after the NAUO scan: the number of
NAUOs whose references contain `pdId`, provided `pdId` is a
`PRODUCT_DEFINITION`; ids never incremented are absent (count 0 here). -/
def StepSplitter.nauoOccurrenceCount (p : StepParser) (pdId : Nat) : Nat :=
  match p.lookup pdId with
  | some e =>
    if e.type = "PRODUCT_DEFINITION" then
      ((p.find_entities_by_type "NEXT_ASSEMBLY_USAGE_OCCURRENCE").filter (fun nauoId =>
        match p.lookup nauoId with
        | some nauo => pdId ∈ nauo.references
        | none => false)).length
    else 0
  | none => 0

/-- `part_occurrence_count.get(pd_id, 1)`. -/
def StepSplitter.nauoCountD (p : StepParser) (pdId : Nat) : Nat :=
  let c := StepSplitter.nauoOccurrenceCount p pdId
  if c = 0 then 1 else c

/-- The `(product_name, count)` entry of `solid_info` in
`_split_assembly`. -/
def StepSplitter.assemblySolidInfo (p : StepParser) (baseName : String) (solidId : Nat) :
    String × Nat :=
  match StepSplitter.find_product_for_solid p solidId with
  | some productName =>
    match StepSplitter.find_product_definition_for_solid p solidId with
    | some pdId => (productName, StepSplitter.nauoCountD p pdId)
    | none => (productName, 1)
  | none => (baseName ++ "-" ++ toString solidId, 1)

/-- One step of Python-dict grouping: append to the entry with this key,
or create the entry at the end. -/
def gbhStep {α : Type} (acc : List (String × List α)) (q : String × α) :
    List (String × List α) :=
  if acc.any (fun g => g.1 == q.1) then
    acc.map (fun g => if g.1 == q.1 then (g.1, g.2 ++ [q.2]) else g)
  else acc ++ [(q.1, [q.2])]

/-- Python-dict grouping: first-seen key order, values appended. -/
def groupByHash {α : Type} (l : List (String × α)) : List (String × List α) :=
  l.foldl gbhStep []

/-- The result of one splitting strategy: emitted `(filename, content)`
pairs and the accumulated report rows. -/
structure SplitOutcome where
  files : List (String × String)
  report : List (String × Nat)
deriving DecidableEq, Repr

/-- `_split_assembly`: resolve names and counts, group by geometry hash,
emit one file per group under the first member's name, report the summed
count. -/
def StepSplitter.split_assembly (p : StepParser) (baseName timestamp : String) :
    SplitOutcome :=
  let solidBodies := p.find_entities_by_type "MANIFOLD_SOLID_BREP"
  let solidInfo := solidBodies.map (fun s => (s, StepSplitter.assemblySolidInfo p baseName s))
  let hashToSolids :=
    groupByHash (solidInfo.map (fun q => (GeometryHasher.compute_geometry_hash p q.1, q)))
  let emitted := hashToSolids.map (fun g =>
    let totalCount := (g.2.map (fun q => q.2.2)).sum
    let first := g.2.headD (0, ("", 0))
    let deps := StepSplitter.collect_solid_dependencies p first.1
    let productName := first.2.1
    ((StepSplitter.sanitize_filename productName ++ ".stp",
      StepWriter.contentOf productName deps p timestamp),
     (productName, totalCount)))
  { files := emitted.map (fun q => q.1), report := emitted.map (fun q => q.2) }

/-- The three-stage name choice of `_split_multi_volume_part`: embedded
solid name, then product name, then `{base_name}_{unique_count}`. -/
def StepSplitter.mvChooseName (p : StepParser) (baseName : String)
    (uniqueCount solidId : Nat) : String :=
  match StepSplitter.get_solid_name p solidId with
  | some n => n
  | none =>
    match StepSplitter.find_product_for_solid p solidId with
    | some n => n
    | none => baseName ++ "_" ++ toString uniqueCount

/-- The duplicate-name handling of one `_split_multi_volume_part`
iteration: the chosen part name, its sanitised form, and the updated
`used_names` table (whose counts are only ever tested for key
membership). -/
def StepSplitter.mvNameStep (p : StepParser) (baseName : String) (uc solidId : Nat)
    (used : List (String × Nat)) : String × String × List (String × Nat) :=
  let partName0 := StepSplitter.mvChooseName p baseName uc solidId
  let sanitized0 := StepSplitter.sanitize_filename partName0
  if used.any (fun q => q.1 == sanitized0) then
    let pn := partName0 ++ "-" ++ toString solidId
    (pn, StepSplitter.sanitize_filename pn,
     used.map (fun q => if q.1 == sanitized0 then (q.1, q.2 + 1) else q))
  else (partName0, sanitized0, used ++ [(sanitized0, 1)])

/-- The per-group loop of `_split_multi_volume_part`, carrying
`unique_count` and the `used_names` table. -/
def StepSplitter.mvLoop (p : StepParser) (baseName timestamp : String) :
    List (String × List Nat) → Nat → List (String × Nat) → SplitOutcome
  | [], _, _ => { files := [], report := [] }
  | g :: rest, uc, used =>
    let solidId := g.2.headD 0
    let count := g.2.length
    let deps := StepSplitter.collect_solid_dependencies p solidId
    let step := StepSplitter.mvNameStep p baseName uc solidId used
    let restOut := StepSplitter.mvLoop p baseName timestamp rest (uc + 1) step.2.2
    { files := (step.2.1 ++ ".stp", StepWriter.contentOf step.1 deps p timestamp)
        :: restOut.files,
      report := (step.1, count) :: restOut.report }

/-- `_split_multi_volume_part`. -/
def StepSplitter.split_multi_volume_part (p : StepParser) (baseName timestamp : String)
    (solidBodies : List Nat) : SplitOutcome :=
  let groups :=
    groupByHash (solidBodies.map (fun s => (GeometryHasher.compute_geometry_hash p s, s)))
  StepSplitter.mvLoop p baseName timestamp groups 1 []

/-- `_export_single_part`. -/
def StepSplitter.export_single_part (p : StepParser) (baseName timestamp : String)
    (solidId : Nat) : SplitOutcome :=
  let deps := StepSplitter.collect_solid_dependencies p solidId
  let partName :=
    match StepSplitter.get_solid_name p solidId with
    | some n => n
    | none =>
      match StepSplitter.find_product_for_solid p solidId with
      | some n => n
      | none => baseName ++ "_1"
  { files := [(StepSplitter.sanitize_filename partName ++ ".stp",
               StepWriter.contentOf partName deps p timestamp)],
    report := [(partName, 1)] }

/-- Strategy dispatch of `StepSplitter.split` (after parsing): assembly
when any NAUO exists, multi-volume for more than one body, single for
exactly one, nothing otherwise. -/
def StepSplitter.split (p : StepParser) (timestamp : String) : SplitOutcome :=
  let baseName := p.originalFilename
  let assemblyOccurrences := p.find_entities_by_type "NEXT_ASSEMBLY_USAGE_OCCURRENCE"
  if ¬ assemblyOccurrences.isEmpty then
    StepSplitter.split_assembly p baseName timestamp
  else
    let solidBodies := p.find_entities_by_type "MANIFOLD_SOLID_BREP"
    if solidBodies.length > 1 then
      StepSplitter.split_multi_volume_part p baseName timestamp solidBodies
    else
      match solidBodies with
      | [s] => StepSplitter.export_single_part p baseName timestamp s
      | _ => { files := [], report := [] }

/-- `_write_report`: `(path, content)` of the report — rows sorted by
name, `name;count` lines joined with newlines. -/
def StepSplitter.write_report (outDir baseName : String)
    (partReport : List (String × Nat)) : String × String :=
  (outDir ++ "/" ++ baseName ++ ".txt",
   joinSep "\n"
     ((partReport.insertionSort rowLe).map
       (fun q => q.1 ++ ";" ++ toString q.2)))

/-! ## Run-level model (side effects, `main`'s error path) -/

/-- A file-system side effect, in the order the source performs them. -/
inductive Effect where
  | mkdir (path : String)
  | writeFile (path content : String)
deriving DecidableEq, Repr

/-- `StepSplitter.split` at the run level, given the input stem and file
text: parse (fatal only when `DATA` is missing — before any effect),
create the output directory, emit the per-body files, write the report. -/
def splitRun (stem content outDir timestamp : String) : Except String (List Effect) :=
  match StepParser.parse stem content with
  | Except.error e => Except.error e
  | Except.ok p =>
    let outcome := StepSplitter.split p timestamp
    let report := StepSplitter.write_report outDir p.originalFilename outcome.report
    Except.ok (Effect.mkdir outDir ::
      outcome.files.map (fun f => Effect.writeFile (outDir ++ "/" ++ f.1) f.2) ++
      [Effect.writeFile report.1 report.2])

/-- Observable result of `main`'s try/except: exit code, the `Error:`
line printed to stderr (the traceback dump that follows it is elided),
and the performed effects. -/
structure RunResult where
  exitCode : Nat
  stderrLines : List String
  effects : List Effect
deriving DecidableEq, Repr

/-- `main`'s wrapper around `StepSplitter.split`: on success exit 0, on
an exception print `Error: <message>` to stderr and exit 1. -/
def mainRun (stem content outDir timestamp : String) : RunResult :=
  match splitRun stem content outDir timestamp with
  | Except.ok effs => { exitCode := 0, stderrLines := [], effects := effs }
  | Except.error e => { exitCode := 1, stderrLines := ["Error: " ++ e], effects := [] }

/-! ## Observations on emitted files, and concrete example inputs -/

/-- The id at the head of a record line (`#<digits>` at the start). -/
def headId (l : String) : Option Nat :=
  match l.data with
  | c :: r =>
    if c = '#' then
      (let ds := r.takeWhile Char.isDigit
       if ds.isEmpty then none else some (digitsVal ds))
    else none
  | [] => none

/-- The ids appearing as record heads (`#<digits>` at the start of a
line) in an emitted file's lines. -/
def recordHeads (lines : List String) : List Nat :=
  lines.filterMap headId

/-- Whether a record line begins with `#<id>` followed by a non-digit,
for precisely the given id (the shape `_parse_entity_line` guarantees). -/
def headedBy (i : Nat) (s : String) : Bool :=
  match s.data with
  | c :: r => c == '#' && r.takeWhile Char.isDigit == natChars i
  | [] => false

/-- Build an entity exactly as the parser would produce it from
`#<id> = <type>(<content>);`. -/
def mkEnt (i : Nat) (ty content : String) : StepEntity :=
  ⟨i, ty, content, "#" ++ toString i ++ " = " ++ ty ++ "(" ++ content ++ ");"⟩

/-- Input A: one body whose `ADVANCED_BREP_SHAPE_REPRESENTATION` carries a
dangling reference `#4` sitting between present ids. -/
def exA : StepParser :=
  ⟨"", "A",
   [mkEnt 1 "MANIFOLD_SOLID_BREP" "'A',#2",
    mkEnt 2 "CLOSED_SHELL" "'',()",
    mkEnt 6 "ADVANCED_BREP_SHAPE_REPRESENTATION" "'',(#1),#4,#8",
    mkEnt 8 "GEOMETRIC_REPRESENTATION_CONTEXT" "''"]⟩

/-- Input B: one body with a dangling ABSR reference `#3` and a
`STYLED_ITEM` with a dangling reference `#10`. -/
def exB : StepParser :=
  ⟨"", "B",
   [mkEnt 1 "MANIFOLD_SOLID_BREP" "'B',#5",
    mkEnt 5 "CLOSED_SHELL" "'',()",
    mkEnt 7 "ADVANCED_BREP_SHAPE_REPRESENTATION" "'',(#1),#3",
    mkEnt 9 "STYLED_ITEM" "'',#10,#1"]⟩

/-- Input M: two geometrically identical bodies (same payloads up to
entity ids), no assembly structure — multi-volume mode. -/
def exM : StepParser :=
  ⟨"", "M",
   [mkEnt 1 "MANIFOLD_SOLID_BREP" "'A',#2",
    mkEnt 2 "CLOSED_SHELL" "'',(#3)",
    mkEnt 3 "ADVANCED_FACE" "'',()",
    mkEnt 11 "MANIFOLD_SOLID_BREP" "'A',#14",
    mkEnt 13 "ADVANCED_FACE" "'',()",
    mkEnt 14 "CLOSED_SHELL" "'',(#13)"]⟩

/-- Input N: two bodies identical except for the name string embedded in
the `MANIFOLD_SOLID_BREP` payload. -/
def exN : StepParser :=
  ⟨"", "N",
   [mkEnt 1 "MANIFOLD_SOLID_BREP" "'PARTA',#2",
    mkEnt 2 "CLOSED_SHELL" "'',()",
    mkEnt 5 "MANIFOLD_SOLID_BREP" "'PARTB',#6",
    mkEnt 6 "CLOSED_SHELL" "'',()"]⟩

/-- Input X: an assembly (one NAUO) whose single body has neither an
embedded name nor a product chain. -/
def exX : StepParser :=
  ⟨"", "X",
   [mkEnt 7 "MANIFOLD_SOLID_BREP" "'',#8",
    mkEnt 8 "CLOSED_SHELL" "'',()",
    mkEnt 9 "NEXT_ASSEMBLY_USAGE_OCCURRENCE" "'','','',#99"]⟩

/-- Input S5: an assembly whose body has a resolvable
`PRODUCT_DEFINITION` (`#20`, referenced by two NAUOs) but no resolvable
product name (`#20` has no formation chain). -/
def exS5 : StepParser :=
  ⟨"", "S5",
   [mkEnt 1 "MANIFOLD_SOLID_BREP" "'',#2",
    mkEnt 2 "CLOSED_SHELL" "'',()",
    mkEnt 10 "ADVANCED_BREP_SHAPE_REPRESENTATION" "'',(#1),#11",
    mkEnt 11 "GEOMETRIC_REPRESENTATION_CONTEXT" "''",
    mkEnt 12 "SHAPE_DEFINITION_REPRESENTATION" "#13,#10",
    mkEnt 13 "PRODUCT_DEFINITION_SHAPE" "'','',#20",
    mkEnt 20 "PRODUCT_DEFINITION" "'',''",
    mkEnt 30 "NEXT_ASSEMBLY_USAGE_OCCURRENCE" "'','','',#20,#40",
    mkEnt 31 "NEXT_ASSEMBLY_USAGE_OCCURRENCE" "'','','',#20,#41"]⟩

/-- Input S6: as S5 but with three NAUOs referencing the body's PD. -/
def exS6 : StepParser :=
  ⟨"", "S6",
   [mkEnt 1 "MANIFOLD_SOLID_BREP" "'',#2",
    mkEnt 2 "CLOSED_SHELL" "'',()",
    mkEnt 10 "ADVANCED_BREP_SHAPE_REPRESENTATION" "'',(#1),#11",
    mkEnt 11 "GEOMETRIC_REPRESENTATION_CONTEXT" "''",
    mkEnt 12 "SHAPE_DEFINITION_REPRESENTATION" "#13,#10",
    mkEnt 13 "PRODUCT_DEFINITION_SHAPE" "'','',#20",
    mkEnt 20 "PRODUCT_DEFINITION" "'',''",
    mkEnt 30 "NEXT_ASSEMBLY_USAGE_OCCURRENCE" "'','','',#20,#40",
    mkEnt 31 "NEXT_ASSEMBLY_USAGE_OCCURRENCE" "'','','',#20,#41",
    mkEnt 32 "NEXT_ASSEMBLY_USAGE_OCCURRENCE" "'','','',#20,#42"]⟩

/-- Input W5: an assembly whose body has a fully resolvable product chain
(PD `#20` → formation `#21` → product `#22` named `BOLT`) and whose PD is
referenced by two NAUOs. -/
def exW5 : StepParser :=
  ⟨"", "W5",
   [mkEnt 1 "MANIFOLD_SOLID_BREP" "'',#2",
    mkEnt 2 "CLOSED_SHELL" "'',()",
    mkEnt 10 "ADVANCED_BREP_SHAPE_REPRESENTATION" "'',(#1),#11",
    mkEnt 11 "GEOMETRIC_REPRESENTATION_CONTEXT" "''",
    mkEnt 12 "SHAPE_DEFINITION_REPRESENTATION" "#13,#10",
    mkEnt 13 "PRODUCT_DEFINITION_SHAPE" "'','',#20",
    mkEnt 20 "PRODUCT_DEFINITION" "'','',#21",
    mkEnt 21 "PRODUCT_DEFINITION_FORMATION_WITH_SPECIFIED_SOURCE" "'','',#22",
    mkEnt 22 "PRODUCT" "'BOLT','BOLT',''",
    mkEnt 30 "NEXT_ASSEMBLY_USAGE_OCCURRENCE" "'','','',#20,#40",
    mkEnt 31 "NEXT_ASSEMBLY_USAGE_OCCURRENCE" "'','','',#20,#41"]⟩

/-- Input W1: one body, two present, reference-closed entities. -/
def exW1 : StepParser :=
  ⟨"", "W1",
   [mkEnt 1 "MANIFOLD_SOLID_BREP" "'A',#2",
    mkEnt 2 "CLOSED_SHELL" "'',()"]⟩

/-- Input W4: a single body with an empty embedded name and no product
chain. -/
def exW4 : StepParser :=
  ⟨"", "W4",
   [mkEnt 3 "MANIFOLD_SOLID_BREP" "'',#4",
    mkEnt 4 "CLOSED_SHELL" "'',()"]⟩

/-! ## Lemmas about `groupByHash` (Python-dict grouping) -/

theorem gbhStep_cons {α : Type} (g : String × List α) (rest : List (String × List α))
    (q : String × α) (hnd : ((g :: rest).map Prod.fst).Nodup) :
    gbhStep (g :: rest) q =
      if g.1 = q.1 then (g.1, g.2 ++ [q.2]) :: rest else g :: gbhStep rest q := by
  have hg : g.1 ∉ rest.map Prod.fst := by
    have h2 := hnd
    rw [List.map_cons, List.nodup_cons] at h2
    exact h2.1
  by_cases h : g.1 = q.1
  · have hrest : rest.map (fun x => if x.1 = q.1 then (x.1, x.2 ++ [q.2]) else x) = rest := by
      have hid : ∀ a ∈ rest, (fun x : String × List α =>
          if x.1 = q.1 then (x.1, x.2 ++ [q.2]) else x) a = id a := by
        intro a ha
        have hne : a.1 ≠ q.1 := by
          intro e
          exact hg (by rw [h, ← e]; exact List.mem_map_of_mem _ ha)
        simp [hne]
      rw [List.map_congr_left hid, List.map_id]
    simp [gbhStep, List.any_cons, h, hrest]
  · have hne : (g.1 == q.1) = false := by simp [h]
    by_cases hany : rest.any (fun x => x.1 == q.1)
    · simp [gbhStep, List.any_cons, hne, hany, h]
    · simp [gbhStep, List.any_cons, hne, hany, h]

theorem gbhStep_keys {α : Type} (acc : List (String × List α)) (q : String × α) :
    (gbhStep acc q).map Prod.fst =
      if acc.any (fun g => g.1 == q.1) then acc.map Prod.fst
      else acc.map Prod.fst ++ [q.1] := by
  unfold gbhStep
  by_cases hany : acc.any (fun g => g.1 == q.1)
  · simp only [hany, if_true, List.map_map]
    apply List.map_congr_left
    intro a _
    by_cases h : a.1 = q.1 <;> simp [h]
  · simp [hany]

theorem gbhStep_keys_nodup {α : Type} (acc : List (String × List α)) (q : String × α)
    (hnd : (acc.map Prod.fst).Nodup) : ((gbhStep acc q).map Prod.fst).Nodup := by
  rw [gbhStep_keys]
  by_cases hany : acc.any (fun g => g.1 == q.1)
  · simpa [hany]
  · have hq : q.1 ∉ acc.map Prod.fst := by
      intro hm
      rcases List.mem_map.mp hm with ⟨a, ha, he⟩
      exact hany (List.any_eq_true.mpr ⟨a, ha, by simp [he]⟩)
    simp only [hany, if_false]
    exact List.Nodup.append hnd (List.nodup_singleton _)
      (by intro a ha hb; simp at hb; subst hb; exact hq ha)

theorem foldl_gbh_keys_nodup {α : Type} :
    ∀ (l : List (String × α)) (acc : List (String × List α)),
    (acc.map Prod.fst).Nodup → ((l.foldl gbhStep acc).map Prod.fst).Nodup := by
  intro l
  induction l with
  | nil => intro acc h; simpa using h
  | cons q t ih => intro acc h; exact ih _ (gbhStep_keys_nodup acc q h)

theorem gbhStep_preserves {α : Type} (acc : List (String × List α)) (q : String × α)
    (g0 : String × List α) (h : g0 ∈ acc) :
    ∃ g1 ∈ gbhStep acc q, g1.1 = g0.1 ∧ ∀ x ∈ g0.2, x ∈ g1.2 := by
  unfold gbhStep
  by_cases hany : acc.any (fun g => g.1 == q.1)
  · refine ⟨if g0.1 == q.1 then (g0.1, g0.2 ++ [q.2]) else g0, ?_, ?_, ?_⟩
    · simp only [hany, if_true]
      exact List.mem_map_of_mem _ h
    · by_cases hc : g0.1 = q.1 <;> simp [hc]
    · intro x hx
      by_cases hc : g0.1 = q.1 <;> simp [hc, hx]
  · exact ⟨g0, by simp [hany, h], rfl, fun x hx => hx⟩

theorem gbhStep_adds {α : Type} (acc : List (String × List α)) (q : String × α) :
    ∃ g1 ∈ gbhStep acc q, g1.1 = q.1 ∧ q.2 ∈ g1.2 := by
  unfold gbhStep
  by_cases hany : acc.any (fun g => g.1 == q.1)
  · rcases List.any_eq_true.mp hany with ⟨g0, hg0, hk⟩
    have hk' : g0.1 = q.1 := by simpa using hk
    refine ⟨(g0.1, g0.2 ++ [q.2]), ?_, hk', by simp⟩
    simp only [hany, if_true]
    have : (fun g : String × List α => if g.1 == q.1 then (g.1, g.2 ++ [q.2]) else g) g0
        = (g0.1, g0.2 ++ [q.2]) := by simp [hk']
    rw [← this]
    exact List.mem_map_of_mem _ hg0
  · exact ⟨(q.1, [q.2]), by simp [hany], rfl, by simp⟩

theorem gbh_fold_preserves {α : Type} :
    ∀ (l : List (String × α)) (acc : List (String × List α)) (g0 : String × List α),
    g0 ∈ acc → ∃ g ∈ l.foldl gbhStep acc, g.1 = g0.1 ∧ ∀ x ∈ g0.2, x ∈ g.2 := by
  intro l
  induction l with
  | nil => intro acc g0 h; exact ⟨g0, h, rfl, fun x hx => hx⟩
  | cons q t ih =>
    intro acc g0 h
    rcases gbhStep_preserves acc q g0 h with ⟨g1, hg1, hk1, hsub1⟩
    rcases ih (gbhStep acc q) g1 hg1 with ⟨g, hg, hk, hsub⟩
    exact ⟨g, hg, hk.trans hk1, fun x hx => hsub x (hsub1 x hx)⟩

theorem gbh_mem {α : Type} :
    ∀ (l : List (String × α)) (acc : List (String × List α)) (k : String) (x : α),
    (k, x) ∈ l → ∃ g ∈ l.foldl gbhStep acc, g.1 = k ∧ x ∈ g.2 := by
  intro l
  induction l with
  | nil => intro acc k x h; cases h
  | cons q t ih =>
    intro acc k x h
    rcases List.mem_cons.mp h with rfl | h1
    · rcases gbhStep_adds acc (k, x) with ⟨g1, hg1, hk1, hx1⟩
      rcases gbh_fold_preserves t (gbhStep acc (k, x)) g1 hg1 with ⟨g, hg, hk, hsub⟩
      exact ⟨g, hg, hk.trans hk1, hsub x hx1⟩
    · exact ih _ k x h1

theorem keys_nodup_unique {α : Type} :
    ∀ (gs : List (String × List α)), (gs.map Prod.fst).Nodup →
    ∀ g ∈ gs, ∀ g' ∈ gs, g.1 = g'.1 → g = g' := by
  intro gs
  induction gs with
  | nil => intro _ g h; cases h
  | cons a t ih =>
    intro hnd g hg g' hg' hk
    rw [List.map_cons, List.nodup_cons] at hnd
    rcases List.mem_cons.mp hg with h1 | h1 <;> rcases List.mem_cons.mp hg' with h2 | h2
    · rw [h1, h2]
    · exfalso
      apply hnd.1
      rw [h1] at hk
      rw [hk]
      exact List.mem_map_of_mem Prod.fst h2
    · exfalso
      apply hnd.1
      rw [h2] at hk
      rw [← hk]
      exact List.mem_map_of_mem Prod.fst h1
    · exact ih hnd.2 g h1 g' h2 hk

theorem gbhStep_sum {α : Type} (f : α → Nat) :
    ∀ (acc : List (String × List α)) (q : String × α), (acc.map Prod.fst).Nodup →
    ((gbhStep acc q).map (fun g => (g.2.map f).sum)).sum
      = (acc.map (fun g => (g.2.map f).sum)).sum + f q.2 := by
  intro acc
  induction acc with
  | nil => intro q _; simp [gbhStep]
  | cons g rest ih =>
    intro q hnd
    rw [gbhStep_cons g rest q hnd]
    rw [List.map_cons, List.nodup_cons] at hnd
    by_cases h : g.1 = q.1
    · simp only [h, if_true, List.map_cons, List.sum_cons, List.map_append, List.sum_append]
      simp
      omega
    · simp only [h, if_false, List.map_cons, List.sum_cons, ih q hnd.2]
      omega

theorem gbh_sum {α : Type} (f : α → Nat) :
    ∀ (l : List (String × α)) (acc : List (String × List α)), (acc.map Prod.fst).Nodup →
    ((l.foldl gbhStep acc).map (fun g => (g.2.map f).sum)).sum
      = (acc.map (fun g => (g.2.map f).sum)).sum + (l.map (fun q => f q.2)).sum := by
  intro l
  induction l with
  | nil => intro acc _; simp
  | cons q t ih =>
    intro acc hnd
    simp only [List.foldl_cons, List.map_cons, List.sum_cons]
    rw [ih _ (gbhStep_keys_nodup acc q hnd), gbhStep_sum f acc q hnd]
    omega

/-- Two entries with the same key end up in the same group. -/
theorem groupByHash_pair {α : Type} (l : List (String × α)) (k : String) (x y : α)
    (hx : (k, x) ∈ l) (hy : (k, y) ∈ l) :
    ∃ g ∈ groupByHash l, g.1 = k ∧ x ∈ g.2 ∧ y ∈ g.2 := by
  rcases gbh_mem l [] k x hx with ⟨g, hg, hk, hxg⟩
  rcases gbh_mem l [] k y hy with ⟨g', hg', hk', hyg⟩
  have : g = g' := keys_nodup_unique _ (foldl_gbh_keys_nodup l [] (by simp)) g hg g' hg'
    (hk.trans hk'.symm)
  exact ⟨g, hg, hk, hxg, this ▸ hyg⟩

/-- The group sizes of `groupByHash` sum to the input length. -/
theorem groupByHash_sizes (α : Type) (l : List (String × α)) :
    ((groupByHash l).map (fun g => g.2.length)).sum = l.length := by
  have h := gbh_sum (fun _ : α => 1) l [] (by simp)
  simp only [groupByHash, List.map_nil, List.sum_nil, Nat.zero_add] at h ⊢
  have h1 : ∀ gs : List (String × List α),
      (gs.map (fun g => (g.2.map (fun _ => 1)).sum)).sum = (gs.map (fun g => g.2.length)).sum := by
    intro gs
    congr 1
    apply List.map_congr_left
    intro g _
    simp [List.map_const', List.sum_replicate]
  have h2 : (l.map (fun _ => (1 : Nat))).sum = l.length := by
    simp [List.map_const', List.sum_replicate]
  rw [← h1, h, h2]

/-! ## Claim theorems: concrete counterexamples and existential claims -/

/-- C9: on input `exB`, `_collect_solid_dependencies` returns a set
containing ids `3` and `10` that have no entity in the graph — `3` came
from the body's ABSR `out_refs`, `10` from its `STYLED_ITEM`'s
`out_refs`, both added without a presence check — and `write_step_file`
then emits record heads `[1, 3, 4, 5]` for a 6-element set: the dense
positions 2 and 6 are assigned to the absent ids and no record carries
them, so the emitted ids have gaps instead of forming `1..6`. -/
theorem C9_dangling_ids_enter_dependency_set :
    (3 ∈ StepSplitter.collect_solid_dependencies exB 1
      ∧ 10 ∈ StepSplitter.collect_solid_dependencies exB 1)
    ∧ exB.lookup 3 = none ∧ exB.lookup 10 = none
    ∧ (StepSplitter.collect_solid_dependencies exB 1).length = 6
    ∧ recordHeads (StepWriter.write_step_file "B"
        (StepSplitter.collect_solid_dependencies exB 1) exB "T") = [1, 3, 4, 5]
    ∧ recordHeads (StepWriter.write_step_file "B"
        (StepSplitter.collect_solid_dependencies exB 1) exB "T") ≠ List.range' 1 6 := by
  decide

/-- C10: `compute_geometry_hash` hashes the full normalised payload
including quoted strings: on input `exN`, whose two bodies differ only in
the name embedded in the `MANIFOLD_SOLID_BREP` payload, the normalised
payloads differ, the fingerprints differ, and the orchestrator emits two
separate files/report rows instead of grouping them. -/
theorem C10_embedded_name_breaks_grouping :
    GeometryHasher.normalize_entity (mkEnt 1 "MANIFOLD_SOLID_BREP" "'PARTA',#2")
      ≠ GeometryHasher.normalize_entity (mkEnt 5 "MANIFOLD_SOLID_BREP" "'PARTB',#6")
    ∧ GeometryHasher.compute_geometry_hash exN 1 ≠ GeometryHasher.compute_geometry_hash exN 5
    ∧ (StepSplitter.split exN "T").report = [("PARTA", 1), ("PARTB", 1)]
    ∧ (StepSplitter.split exN "T").files.length = 2 := by
  decide

/-- C1 (counterexample): on input `exA` the pipeline's selected set for
body 1 is `{1, 2, 4, 6, 8}` with `4` absent from the graph; the emitted
record heads are `[1, 2, 4, 5]`, not the dense range `1..5`, and the
dangling reference `#4` is not left unchanged but renumbered to `#3`. -/
theorem C1_counterexample_heads_not_dense :
    StepSplitter.collect_solid_dependencies exA 1 = [1, 2, 4, 6, 8]
    ∧ exA.lookup 4 = none
    ∧ recordHeads (StepWriter.write_step_file "A"
        (StepSplitter.collect_solid_dependencies exA 1) exA "T") = [1, 2, 4, 5]
    ∧ (StepSplitter.collect_solid_dependencies exA 1).length = 5
    ∧ ([1, 2, 4, 5] : List Nat) ≠ List.range' 1 5
    ∧ (StepWriter.write_step_file "A"
        (StepSplitter.collect_solid_dependencies exA 1) exA "T").get? 10
        = some "#4 = ADVANCED_BREP_SHAPE_REPRESENTATION('',(#1),#3,#5);" := by
  decide

/-- C4 (counterexample): input `exX` is an assembly whose only body `#7`
has neither a product-chain name nor a non-empty embedded name; the
display name used for the report row is `X-7` (`{stem}-{entity_id}`), not
the claimed `X_1` (`{stem}_{ordinal}`). -/
theorem C4_counterexample_assembly_fallback :
    (StepSplitter.split exX "T").report = [("X-7", 1)]
    ∧ StepSplitter.get_solid_name exX 7 = none
    ∧ StepSplitter.find_product_for_solid exX 7 = none
    ∧ exX.find_entities_by_type "NEXT_ASSEMBLY_USAGE_OCCURRENCE" ≠ []
    ∧ ("X-7" : String) ≠ "X_1" := by
  decide

/-- C5 (counterexample): on input `exS5` the body's PD `#20` resolves via
the ABSR→SDR→PDS→PD chain and appears in 2 NAUOs, but because the product
name does not resolve the reported count is 1, not 2. -/
theorem C5_counterexample_name_gates_count :
    (StepSplitter.split exS5 "T").report = [("S5-1", 1)]
    ∧ StepSplitter.find_product_definition_for_solid exS5 1 = some 20
    ∧ StepSplitter.nauoOccurrenceCount exS5 20 = 2
    ∧ (1 : Nat) ≠ 2 := by
  decide

/-- C6 (counterexample): on input `exS6` (assembly mode), the only body
has a resolvable PD `#20` appearing in 3 NAUOs but no resolvable product
name; the report counts sum to 1, not to the claimed NAUO-weighted total
of 3. -/
theorem C6_counterexample_report_sum :
    ((StepSplitter.split exS6 "T").report.map (fun q => q.2)).sum = 1
    ∧ StepSplitter.find_product_definition_for_solid exS6 1 = some 20
    ∧ StepSplitter.nauoOccurrenceCount exS6 20 = 3
    ∧ (1 : Nat) ≠ 3 := by
  decide

/-! ## Order facts for the Python string comparison -/

theorem charListLe_total : ∀ a b : List Char, charListLe a b = true ∨ charListLe b a = true
  | [], _ => Or.inl rfl
  | _ :: _, [] => Or.inr rfl
  | a :: s, b :: t => by
    by_cases h1 : a.toNat < b.toNat
    · left; simp [charListLe, h1]
    · by_cases h2 : b.toNat < a.toNat
      · right; simp [charListLe, h2]
      · rcases charListLe_total s t with h | h
        · left; simp [charListLe, h1, h2, h]
        · right
          simp only [charListLe, h1, h2, if_false]
          simpa [show ¬ b.toNat < a.toNat from h2, show ¬ a.toNat < b.toNat from h1] using h

theorem charListLe_trans : ∀ a b c : List Char,
    charListLe a b = true → charListLe b c = true → charListLe a c = true
  | [], _, _ => by intro _ _; rfl
  | _ :: _, [], _ => by intro h _; cases h
  | _ :: _, _ :: _, [] => by intro _ h; cases h
  | a :: s, b :: t, c :: u => by
    intro h1 h2
    simp only [charListLe] at h1 h2 ⊢
    by_cases hab : a.toNat < b.toNat <;> by_cases hbc : b.toNat < c.toNat
    · simp [show a.toNat < c.toNat by omega]
    · simp only [hbc, if_false] at h2
      by_cases hcb : c.toNat < b.toNat
      · simp [hcb] at h2
      · simp [show a.toNat < c.toNat by omega]
    · simp only [hab, if_false] at h1
      by_cases hba : b.toNat < a.toNat
      · simp [hba] at h1
      · simp [show a.toNat < c.toNat by omega]
    · simp only [hab, if_false] at h1
      simp only [hbc, if_false] at h2
      by_cases hba : b.toNat < a.toNat
      · simp [hba] at h1
      · by_cases hcb : c.toNat < b.toNat
        · simp [hcb] at h2
        · simp only [hba, if_false] at h1
          simp only [hcb, if_false] at h2
          have hac : ¬ a.toNat < c.toNat ∨ a.toNat < c.toNat := by tauto
          by_cases h : a.toNat < c.toNat
          · simp [h]
          · simp only [h, if_false, show ¬ c.toNat < a.toNat by omega, if_false]
            exact charListLe_trans s t u h1 h2

theorem charListLe_antisymm : ∀ a b : List Char,
    charListLe a b = true → charListLe b a = true → a = b
  | [], [] => by intro _ _; rfl
  | [], _ :: _ => by intro _ h; cases h
  | _ :: _, [] => by intro h _; cases h
  | a :: s, b :: t => by
    intro h1 h2
    simp only [charListLe] at h1 h2
    by_cases hab : a.toNat < b.toNat
    · simp [show ¬ b.toNat < a.toNat by omega, hab] at h2
    · by_cases hba : b.toNat < a.toNat
      · simp [hab, hba] at h1
      · simp only [hab, hba, if_false] at h1 h2
        have hv : a = b := by
          have hn : a.toNat = b.toNat := by omega
          exact Char.eq_of_val_eq (UInt32.eq_of_toBitVec_eq (BitVec.eq_of_toNat_eq hn))
        rw [hv, charListLe_antisymm s t h1 h2]

instance : IsTotal String strLeProp :=
  ⟨fun a b => charListLe_total a.data b.data⟩

instance : IsTrans String strLeProp :=
  ⟨fun a b c h1 h2 => charListLe_trans a.data b.data c.data h1 h2⟩

instance : IsAntisymm String strLeProp :=
  ⟨fun a b h1 h2 => by
    cases a with
    | mk da =>
      cases b with
      | mk db => exact congrArg String.mk (charListLe_antisymm da db h1 h2)⟩

instance {β : Type} : IsTotal (String × β) rowLe :=
  ⟨fun a b => charListLe_total a.1.data b.1.data⟩

instance {β : Type} : IsTrans (String × β) rowLe :=
  ⟨fun a b c h1 h2 => charListLe_trans a.1.data b.1.data c.1.data h1 h2⟩

/-- Permutation-equal string lists have the same sorted form. -/
theorem sortedStrings_eq_of_perm (l1 l2 : List String) (h : l1.Perm l2) :
    l1.insertionSort strLeProp = l2.insertionSort strLeProp :=
  List.eq_of_perm_of_sorted
    (((List.perm_insertionSort _ l1).trans h).trans (List.perm_insertionSort _ l2).symm)
    (List.sorted_insertionSort _ l1) (List.sorted_insertionSort _ l2)

/-- C3: when the input text has no `DATA;…ENDSEC;` span, the run fails
with exactly the message `Invalid STEP file: DATA section not found`,
printed to stderr prefixed by `Error: `, exit status 1, and no directory
or file effect is performed; and this is the only parse-level fatal
error — whenever a DATA section exists, parsing succeeds (malformed
records are silently dropped inside `parseEntities`). -/
theorem C3_missing_data_is_only_fatal (stem content outDir ts : String) :
    (findSection "DATA;" content = none →
      mainRun stem content outDir ts =
        { exitCode := 1,
          stderrLines := ["Error: Invalid STEP file: DATA section not found"],
          effects := [] })
    ∧ (findSection "DATA;" content ≠ none →
      ∃ p, StepParser.parse stem content = Except.ok p) := by
  constructor
  · intro h
    simp only [mainRun, splitRun, StepParser.parse, h]
    rfl
  · intro h
    cases hD : findSection "DATA;" content with
    | none => exact absurd hD h
    | some d =>
      exact ⟨StepParser.parseEntities
        (match findSection "HEADER;" content with
          | some hdr => ({ header := hdr, originalFilename := stem, entities := [] } : StepParser)
          | none => ({ header := "", originalFilename := stem, entities := [] } : StepParser)) d,
        by simp only [StepParser.parse, hD]⟩

/-- Witness for C3 at concrete inputs: a file with no DATA section fails
exactly as claimed with no effects; a file with a DATA section (and a
malformed record in it) parses successfully. -/
theorem C3_missing_data_is_only_fatal_witness :
    (findSection "DATA;" "hello" = none
      ∧ mainRun "f" "hello" "o" "T" =
        { exitCode := 1,
          stderrLines := ["Error: Invalid STEP file: DATA section not found"],
          effects := [] })
    ∧ (findSection "DATA;" "DATA;\ngarbage;\n#1 = PLANE('',#2);\nENDSEC;" ≠ none
      ∧ ∃ p, StepParser.parse "f" "DATA;\ngarbage;\n#1 = PLANE('',#2);\nENDSEC;"
          = Except.ok p) :=
  ⟨⟨by decide, (C3_missing_data_is_only_fatal "f" "hello" "o" "T").1 (by decide)⟩,
   ⟨by decide, (C3_missing_data_is_only_fatal "f"
      "DATA;\ngarbage;\n#1 = PLANE('',#2);\nENDSEC;" "o" "T").2 (by decide)⟩⟩

/-! ## Structural lemmas about the multi-volume loop -/

theorem mvLoop_files_length (p : StepParser) (b ts : String) :
    ∀ (gs : List (String × List Nat)) (uc : Nat) (used : List (String × Nat)),
    (StepSplitter.mvLoop p b ts gs uc used).files.length = gs.length := by
  intro gs
  induction gs with
  | nil => intro uc used; rfl
  | cons g rest ih =>
    intro uc used
    simp only [StepSplitter.mvLoop, List.length_cons]
    rw [ih]

theorem mvLoop_report_length (p : StepParser) (b ts : String) :
    ∀ (gs : List (String × List Nat)) (uc : Nat) (used : List (String × Nat)),
    (StepSplitter.mvLoop p b ts gs uc used).report.length = gs.length := by
  intro gs
  induction gs with
  | nil => intro uc used; rfl
  | cons g rest ih =>
    intro uc used
    simp only [StepSplitter.mvLoop, List.length_cons]
    rw [ih]

theorem mvLoop_report_counts (p : StepParser) (b ts : String) :
    ∀ (gs : List (String × List Nat)) (uc : Nat) (used : List (String × Nat)),
    (StepSplitter.mvLoop p b ts gs uc used).report.map (fun q => q.2)
      = gs.map (fun g => g.2.length) := by
  intro gs
  induction gs with
  | nil => intro uc used; rfl
  | cons g rest ih =>
    intro uc used
    simp only [StepSplitter.mvLoop, List.map_cons]
    rw [ih]

/-- C2: two bodies of one input whose whitelisted geometric entities
normalise to the same multiset of strings receive the same fingerprint
from `compute_geometry_hash`, land in the same `hash_to_solids` group of
`_split_multi_volume_part`, and one file is emitted per group (so only
one file covers them both). -/
theorem C2_duplicate_symmetry (p : StepParser) (solidBodies : List Nat) (b1 b2 : Nat)
    (baseName ts : String)
    (hperm : (GeometryHasher.geoContent p b1).Perm (GeometryHasher.geoContent p b2))
    (hb1 : b1 ∈ solidBodies) (hb2 : b2 ∈ solidBodies) :
    GeometryHasher.compute_geometry_hash p b1 = GeometryHasher.compute_geometry_hash p b2
    ∧ (∃ g ∈ groupByHash (solidBodies.map
          (fun s => (GeometryHasher.compute_geometry_hash p s, s))),
        g.1 = GeometryHasher.compute_geometry_hash p b1 ∧ b1 ∈ g.2 ∧ b2 ∈ g.2)
    ∧ (StepSplitter.split_multi_volume_part p baseName ts solidBodies).files.length
        = (groupByHash (solidBodies.map
            (fun s => (GeometryHasher.compute_geometry_hash p s, s)))).length := by
  have hhash : GeometryHasher.compute_geometry_hash p b1
      = GeometryHasher.compute_geometry_hash p b2 := by
    unfold GeometryHasher.compute_geometry_hash
    rw [sortedStrings_eq_of_perm _ _ hperm]
  refine ⟨hhash, ?_, ?_⟩
  · have m1 : (GeometryHasher.compute_geometry_hash p b1, b1)
        ∈ solidBodies.map (fun s => (GeometryHasher.compute_geometry_hash p s, s)) :=
      List.mem_map_of_mem _ hb1
    have m2 : (GeometryHasher.compute_geometry_hash p b1, b2)
        ∈ solidBodies.map (fun s => (GeometryHasher.compute_geometry_hash p s, s)) := by
      rw [hhash]
      exact List.mem_map_of_mem _ hb2
    rcases groupByHash_pair _ _ b1 b2 m1 m2 with ⟨g, hg, hk, hx, hy⟩
    exact ⟨g, hg, hk, hx, hy⟩
  · unfold StepSplitter.split_multi_volume_part
    exact mvLoop_files_length p baseName ts _ 1 []

/-- Witness for C2: the two bodies of `exM` have permuted (unequal but
multiset-equal) geometry lists, hence equal fingerprints, one shared
group, and one emitted file per group. -/
theorem C2_duplicate_symmetry_witness :
    (GeometryHasher.geoContent exM 1).Perm (GeometryHasher.geoContent exM 11)
    ∧ (GeometryHasher.compute_geometry_hash exM 1
        = GeometryHasher.compute_geometry_hash exM 11
      ∧ (∃ g ∈ groupByHash ((exM.find_entities_by_type "MANIFOLD_SOLID_BREP").map
            (fun s => (GeometryHasher.compute_geometry_hash exM s, s))),
          g.1 = GeometryHasher.compute_geometry_hash exM 1 ∧ 1 ∈ g.2 ∧ 11 ∈ g.2)
      ∧ (StepSplitter.split_multi_volume_part exM "M" "T"
            (exM.find_entities_by_type "MANIFOLD_SOLID_BREP")).files.length
          = (groupByHash ((exM.find_entities_by_type "MANIFOLD_SOLID_BREP").map
              (fun s => (GeometryHasher.compute_geometry_hash exM s, s)))).length) :=
  ⟨by decide,
   C2_duplicate_symmetry exM (exM.find_entities_by_type "MANIFOLD_SOLID_BREP") 1 11 "M" "T"
     (by decide) (by decide) (by decide)⟩

/-- C4 (amended): when name resolution finds neither a product-chain name
nor a non-empty embedded name, the display name used for the emitted file
and the report row is `{stem}_1` in single mode and `{stem}_{ordinal}`
(the group's `unique_count`) in multi-volume mode provided its sanitised
form is not already taken (otherwise `-{entity_id}` is appended); in
assembly mode the fallback is `{stem}-{entity_id}` instead, and the
embedded name is never consulted. -/
theorem C4_amended_fallback_names :
    (∀ (p : StepParser) (baseName ts : String) (solidId : Nat),
      StepSplitter.get_solid_name p solidId = none →
      StepSplitter.find_product_for_solid p solidId = none →
      (StepSplitter.export_single_part p baseName ts solidId).report = [(baseName ++ "_1", 1)]
      ∧ (StepSplitter.export_single_part p baseName ts solidId).files.map (fun f => f.1)
          = [StepSplitter.sanitize_filename (baseName ++ "_1") ++ ".stp"])
    ∧ (∀ (p : StepParser) (baseName ts : String) (g : String × List Nat)
        (rest : List (String × List Nat)) (uc : Nat) (used : List (String × Nat)),
      StepSplitter.get_solid_name p (g.2.headD 0) = none →
      StepSplitter.find_product_for_solid p (g.2.headD 0) = none →
      used.any (fun q =>
        q.1 == StepSplitter.sanitize_filename (baseName ++ "_" ++ toString uc)) = false →
      ((StepSplitter.mvLoop p baseName ts (g :: rest) uc used).report.headD ("", 0)).1
        = baseName ++ "_" ++ toString uc
      ∧ ((StepSplitter.mvLoop p baseName ts (g :: rest) uc used).files.headD ("", "")).1
        = StepSplitter.sanitize_filename (baseName ++ "_" ++ toString uc) ++ ".stp")
    ∧ (∀ (p : StepParser) (baseName : String) (s : Nat),
      StepSplitter.find_product_for_solid p s = none →
      StepSplitter.assemblySolidInfo p baseName s = (baseName ++ "-" ++ toString s, 1)) := by
  refine ⟨?_, ?_, ?_⟩
  · intro p baseName ts solidId h1 h2
    unfold StepSplitter.export_single_part
    constructor <;> simp [h1, h2]
  · intro p baseName ts g rest uc used h1 h2 h3
    constructor <;>
    · simp only [StepSplitter.mvLoop, StepSplitter.mvNameStep, StepSplitter.mvChooseName,
        h1, h2, h3, Bool.false_eq_true, if_false]
      rfl
  · intro p baseName s h
    unfold StepSplitter.assemblySolidInfo
    simp only [h]

/-- Witness for C4 at `exW4` (stem `W4`, body `#3` with empty embedded
name and no product chain), covering the single-mode, multi-volume-mode
and assembly-mode parts. -/
theorem C4_amended_fallback_names_witness :
    ((StepSplitter.export_single_part exW4 "W4" "T" 3).report = [("W4_1", 1)]
      ∧ (StepSplitter.export_single_part exW4 "W4" "T" 3).files.map (fun f => f.1)
          = [StepSplitter.sanitize_filename ("W4_1") ++ ".stp"])
    ∧ (((StepSplitter.mvLoop exW4 "W4" "T" [("h", [3])] 1 []).report.headD ("", 0)).1 = "W4_1"
      ∧ ((StepSplitter.mvLoop exW4 "W4" "T" [("h", [3])] 1 []).files.headD ("", "")).1
          = StepSplitter.sanitize_filename "W4_1" ++ ".stp")
    ∧ StepSplitter.assemblySolidInfo exW4 "W4" 3 = ("W4-3", 1) :=
  ⟨C4_amended_fallback_names.1 exW4 "W4" "T" 3 (by decide) (by decide),
   C4_amended_fallback_names.2.1 exW4 "W4" "T" ("h", [3]) [] 1 [] (by decide) (by decide)
     (by decide),
   C4_amended_fallback_names.2.2 exW4 "W4" 3 (by decide)⟩

/-- The assembly report's counts are exactly the per-group sums of the
members' `solid_info` counts. -/
theorem split_assembly_report_counts (p : StepParser) (baseName ts : String) :
    (StepSplitter.split_assembly p baseName ts).report.map (fun q => q.2)
      = (groupByHash ((p.find_entities_by_type "MANIFOLD_SOLID_BREP").map (fun s =>
          (GeometryHasher.compute_geometry_hash p s,
           (s, StepSplitter.assemblySolidInfo p baseName s))))).map
        (fun g => (g.2.map (fun q => q.2.2)).sum) := by
  unfold StepSplitter.split_assembly
  simp only [List.length_map, List.map_map]
  rfl

/-- A body's `solid_info` count, split by how name and PD resolution
went. -/
theorem assemblySolidInfo_count (p : StepParser) (bn : String) (b : Nat) :
    (StepSplitter.assemblySolidInfo p bn b).2
      = (match StepSplitter.find_product_for_solid p b with
        | some _ =>
          match StepSplitter.find_product_definition_for_solid p b with
          | some pdId => StepSplitter.nauoCountD p pdId
          | none => 1
        | none => 1) := by
  unfold StepSplitter.assemblySolidInfo
  cases StepSplitter.find_product_for_solid p b <;>
    cases StepSplitter.find_product_definition_for_solid p b <;> rfl

/-- C5 (amended): in assembly mode a body's occurrence count is the
number of NAUO entities whose `out_refs` contain the body's PD (found via
the ABSR→SDR→PDS→PD chain) — defaulting to 1 when that number is 0 —
provided the product *name* also resolves through the chain; when the
name does not resolve (even with a resolvable PD), or no PD resolves, the
count is 1; and a group's reported count is the sum of its members'
counts. -/
theorem C5_amended_occurrence_counts :
    (∀ (p : StepParser) (baseName : String) (b : Nat) (pdEnt : StepEntity),
      StepSplitter.find_product_definition_entity_for_solid p b = some pdEnt →
      (StepSplitter.find_product_for_solid p b).isSome = true →
      (StepSplitter.assemblySolidInfo p baseName b).2
        = (if StepSplitter.nauoOccurrenceCount p pdEnt.id = 0 then 1
           else StepSplitter.nauoOccurrenceCount p pdEnt.id))
    ∧ (∀ (p : StepParser) (baseName : String) (b : Nat),
      StepSplitter.find_product_for_solid p b = none →
      (StepSplitter.assemblySolidInfo p baseName b).2 = 1)
    ∧ (∀ (p : StepParser) (baseName ts : String),
      (StepSplitter.split_assembly p baseName ts).report.map (fun q => q.2)
        = (groupByHash ((p.find_entities_by_type "MANIFOLD_SOLID_BREP").map (fun s =>
            (GeometryHasher.compute_geometry_hash p s,
             (s, StepSplitter.assemblySolidInfo p baseName s))))).map
          (fun g => (g.2.map (fun q => q.2.2)).sum)) := by
  refine ⟨?_, ?_, ?_⟩
  · intro p baseName b pdEnt hpd hsome
    unfold StepSplitter.assemblySolidInfo
    cases hname : StepSplitter.find_product_for_solid p b with
    | none => rw [hname] at hsome; simp at hsome
    | some nm =>
      have hid : StepSplitter.find_product_definition_for_solid p b = some pdEnt.id := by
        unfold StepSplitter.find_product_definition_for_solid
        rw [hpd]
        rfl
      simp only [hid]
      rfl
  · intro p baseName b h
    unfold StepSplitter.assemblySolidInfo
    simp only [h]
  · intro p baseName ts
    exact split_assembly_report_counts p baseName ts

/-- Witness for C5 at `exW5` (name and PD `#20` resolve, two NAUOs) and
`exW4` (no product name): the counts are 2 and 1, and `exW5`'s report
counts equal the per-group member sums. -/
theorem C5_amended_occurrence_counts_witness :
    ((StepSplitter.assemblySolidInfo exW5 "W5" 1).2
      = (if StepSplitter.nauoOccurrenceCount exW5 20 = 0 then 1
         else StepSplitter.nauoOccurrenceCount exW5 20))
    ∧ (StepSplitter.assemblySolidInfo exW4 "W4" 3).2 = 1
    ∧ (StepSplitter.split_assembly exW5 "W5" "T").report.map (fun q => q.2)
        = (groupByHash ((exW5.find_entities_by_type "MANIFOLD_SOLID_BREP").map (fun s =>
            (GeometryHasher.compute_geometry_hash exW5 s,
             (s, StepSplitter.assemblySolidInfo exW5 "W5" s))))).map
          (fun g => (g.2.map (fun q => q.2.2)).sum) :=
  ⟨C5_amended_occurrence_counts.1 exW5 "W5" 1 (mkEnt 20 "PRODUCT_DEFINITION" "'','',#21")
     (by decide) (by decide),
   C5_amended_occurrence_counts.2.1 exW4 "W4" 3 (by decide),
   C5_amended_occurrence_counts.2.2 exW5 "W5" "T"⟩

/-- C6 (amended): the report counts sum, in multi-volume mode, to the
total number of `MANIFOLD_SOLID_BREP` entities of the input; in assembly
mode, to the sum over bodies of the NAUO-weighted occurrence count of
the body's PD — with `part_occurrence_count.get(pd,1)` semantics — when
the product name resolves, and 1 per body whose product name (or PD)
does not resolve. -/
theorem C6_amended_report_sum :
    (∀ (p : StepParser) (ts : String),
      p.find_entities_by_type "NEXT_ASSEMBLY_USAGE_OCCURRENCE" = [] →
      1 < (p.find_entities_by_type "MANIFOLD_SOLID_BREP").length →
      ((StepSplitter.split p ts).report.map (fun q => q.2)).sum
        = (p.find_entities_by_type "MANIFOLD_SOLID_BREP").length)
    ∧ (∀ (p : StepParser) (ts : String),
      p.find_entities_by_type "NEXT_ASSEMBLY_USAGE_OCCURRENCE" ≠ [] →
      ((StepSplitter.split p ts).report.map (fun q => q.2)).sum
        = ((p.find_entities_by_type "MANIFOLD_SOLID_BREP").map (fun b =>
            match StepSplitter.find_product_for_solid p b with
            | some _ =>
              match StepSplitter.find_product_definition_for_solid p b with
              | some pdId => StepSplitter.nauoCountD p pdId
              | none => 1
            | none => 1)).sum) := by
  constructor
  · intro p ts hn hb
    have hdisp : StepSplitter.split p ts
        = StepSplitter.split_multi_volume_part p p.originalFilename ts
            (p.find_entities_by_type "MANIFOLD_SOLID_BREP") := by
      unfold StepSplitter.split
      simp [hn, hb]
    rw [hdisp]
    unfold StepSplitter.split_multi_volume_part
    rw [mvLoop_report_counts]
    have h := groupByHash_sizes Nat
      ((p.find_entities_by_type "MANIFOLD_SOLID_BREP").map (fun s =>
        (GeometryHasher.compute_geometry_hash p s, s)))
    simpa using h
  · intro p ts hn
    have hdisp : StepSplitter.split p ts
        = StepSplitter.split_assembly p p.originalFilename ts := by
      unfold StepSplitter.split
      cases h : p.find_entities_by_type "NEXT_ASSEMBLY_USAGE_OCCURRENCE" with
      | nil => exact absurd h hn
      | cons a t => simp [h]
    rw [hdisp, split_assembly_report_counts]
    have hsum := gbh_sum (fun q : Nat × (String × Nat) => q.2.2)
      ((p.find_entities_by_type "MANIFOLD_SOLID_BREP").map (fun s =>
        (GeometryHasher.compute_geometry_hash p s,
         (s, StepSplitter.assemblySolidInfo p p.originalFilename s)))) [] (by simp)
    simp only [groupByHash]
    rw [hsum]
    simp only [List.map_nil, List.sum_nil, Nat.zero_add, List.map_map]
    congr 1
    apply List.map_congr_left
    intro b _
    exact assemblySolidInfo_count p p.originalFilename b

/-- Witness for C6 at `exM` (multi-volume: two bodies, sum 2) and `exW5`
(assembly: one body, name and PD resolve, PD in two NAUOs, sum 2). -/
theorem C6_amended_report_sum_witness :
    (((StepSplitter.split exM "T").report.map (fun q => q.2)).sum
      = (exM.find_entities_by_type "MANIFOLD_SOLID_BREP").length)
    ∧ (((StepSplitter.split exW5 "T").report.map (fun q => q.2)).sum
      = ((exW5.find_entities_by_type "MANIFOLD_SOLID_BREP").map (fun b =>
          match StepSplitter.find_product_for_solid exW5 b with
          | some _ =>
            match StepSplitter.find_product_definition_for_solid exW5 b with
            | some pdId => StepSplitter.nauoCountD exW5 pdId
            | none => 1
          | none => 1)).sum) :=
  ⟨C6_amended_report_sum.1 exM "T" (by decide) (by decide),
   C6_amended_report_sum.2 exW5 "T" (by decide)⟩

/-! ## Support lemmas for the report-file and determinism claims -/

theorem insertEntity_stem (p : StepParser) (e : StepEntity) :
    (p.insertEntity e).originalFilename = p.originalFilename := by
  unfold StepParser.insertEntity
  split <;> rfl

theorem parseEntitiesStep_stem (st : StepParser × Bool × List String × Int) (l : String) :
    ((parseEntitiesStep st l).1).originalFilename = (st.1).originalFilename := by
  rcases st with ⟨q, inE, cur, depth⟩
  simp only [parseEntitiesStep]
  repeat' split
  all_goals first
  | rfl
  | exact insertEntity_stem _ _

theorem foldl_parseEntitiesStep_stem :
    ∀ (lines : List String) (st : StepParser × Bool × List String × Int),
    ((lines.foldl parseEntitiesStep st).1).originalFilename = (st.1).originalFilename := by
  intro lines
  induction lines with
  | nil => intro st; rfl
  | cons l rest ih =>
    intro st
    rw [List.foldl_cons, ih (parseEntitiesStep st l), parseEntitiesStep_stem]

/-- A successfully parsed input records the input stem as
`original_filename`. -/
theorem parse_stem (stem content : String) (p : StepParser)
    (h : StepParser.parse stem content = Except.ok p) : p.originalFilename = stem := by
  unfold StepParser.parse at h
  cases hD : findSection "DATA;" content with
  | none => rw [hD] at h; cases h
  | some d =>
    rw [hD] at h
    cases h
    unfold StepParser.parseEntities
    rw [foldl_parseEntitiesStep_stem]
    cases findSection "HEADER;" content <;> rfl

/-- The effects of a successful run, explicitly. -/
theorem splitRun_effects (stem content outDir ts : String) (p : StepParser)
    (hp : StepParser.parse stem content = Except.ok p) :
    splitRun stem content outDir ts = Except.ok
      (Effect.mkdir outDir ::
        (StepSplitter.split p ts).files.map
          (fun f => Effect.writeFile (outDir ++ "/" ++ f.1) f.2) ++
        [Effect.writeFile (outDir ++ "/" ++ stem ++ ".txt")
          (joinSep "\n" ((((StepSplitter.split p ts).report).insertionSort rowLe).map
            (fun q => q.1 ++ ";" ++ toString q.2)))]) := by
  unfold splitRun StepSplitter.write_report
  rw [hp]
  simp only [parse_stem stem content p hp]

theorem split_assembly_report_length (p : StepParser) (bn ts : String) :
    (StepSplitter.split_assembly p bn ts).report.length
      = (groupByHash ((p.find_entities_by_type "MANIFOLD_SOLID_BREP").map (fun s =>
          (GeometryHasher.compute_geometry_hash p s,
           (s, StepSplitter.assemblySolidInfo p bn s))))).length := by
  unfold StepSplitter.split_assembly
  simp only [List.length_map, List.map_map]
  rfl

/-- C7: every successful run's final effect writes the report
`{input_stem}.txt` inside `output_dir`, whose content is the `name;count`
rows of the split outcome sorted by name and joined with newlines; the
row list is a permutation of the outcome's report, sorted under the
string order; in assembly and multi-volume modes there is one row per
hash group; and with no bodies and no assembly structure the report is
still written, with empty content. -/
theorem C7_report_file (stem content outDir ts : String) (p : StepParser)
    (effs : List Effect)
    (hp : StepParser.parse stem content = Except.ok p)
    (hr : splitRun stem content outDir ts = Except.ok effs) :
    effs.getLast? = some (Effect.writeFile (outDir ++ "/" ++ stem ++ ".txt")
      (joinSep "\n" ((((StepSplitter.split p ts).report).insertionSort rowLe).map
        (fun q => q.1 ++ ";" ++ toString q.2))))
    ∧ (((StepSplitter.split p ts).report).insertionSort rowLe).Sorted rowLe
    ∧ (((StepSplitter.split p ts).report).insertionSort rowLe).Perm
        (StepSplitter.split p ts).report
    ∧ (p.find_entities_by_type "NEXT_ASSEMBLY_USAGE_OCCURRENCE" ≠ [] →
        (StepSplitter.split p ts).report.length
          = (groupByHash ((p.find_entities_by_type "MANIFOLD_SOLID_BREP").map (fun s =>
              (GeometryHasher.compute_geometry_hash p s,
               (s, StepSplitter.assemblySolidInfo p p.originalFilename s))))).length)
    ∧ (p.find_entities_by_type "NEXT_ASSEMBLY_USAGE_OCCURRENCE" = [] →
        1 < (p.find_entities_by_type "MANIFOLD_SOLID_BREP").length →
        (StepSplitter.split p ts).report.length
          = (groupByHash ((p.find_entities_by_type "MANIFOLD_SOLID_BREP").map (fun s =>
              (GeometryHasher.compute_geometry_hash p s, s)))).length)
    ∧ (p.find_entities_by_type "MANIFOLD_SOLID_BREP" = [] →
        p.find_entities_by_type "NEXT_ASSEMBLY_USAGE_OCCURRENCE" = [] →
        (StepSplitter.split p ts).report = []
        ∧ effs.getLast? = some (Effect.writeFile (outDir ++ "/" ++ stem ++ ".txt") "")) := by
  have heff := splitRun_effects stem content outDir ts p hp
  rw [heff] at hr
  cases hr
  have hlast : ∀ (fs : List (String × String)) (c : String),
      (Effect.mkdir outDir ::
        fs.map (fun f => Effect.writeFile (outDir ++ "/" ++ f.1) f.2) ++
        [Effect.writeFile (outDir ++ "/" ++ stem ++ ".txt") c]).getLast?
      = some (Effect.writeFile (outDir ++ "/" ++ stem ++ ".txt") c) := by
    intro fs c
    exact List.getLast?_concat _
  refine ⟨hlast _ _, List.sorted_insertionSort _ _, List.perm_insertionSort _ _, ?_, ?_, ?_⟩
  · intro hn
    have hdisp : StepSplitter.split p ts
        = StepSplitter.split_assembly p p.originalFilename ts := by
      unfold StepSplitter.split
      cases h : p.find_entities_by_type "NEXT_ASSEMBLY_USAGE_OCCURRENCE" with
      | nil => exact absurd h hn
      | cons a t => simp [h]
    rw [hdisp]
    exact split_assembly_report_length p p.originalFilename ts
  · intro hn hb
    have hdisp : StepSplitter.split p ts
        = StepSplitter.split_multi_volume_part p p.originalFilename ts
            (p.find_entities_by_type "MANIFOLD_SOLID_BREP") := by
      unfold StepSplitter.split
      simp [hn, hb]
    rw [hdisp]
    unfold StepSplitter.split_multi_volume_part
    rw [mvLoop_report_length]
  · intro hb hn
    have hdisp : StepSplitter.split p ts = { files := [], report := [] } := by
      unfold StepSplitter.split
      simp [hn, hb]
    rw [hdisp]
    exact ⟨rfl, hlast [] ""⟩

/-- The expected parse of the C7 witness input (a DATA section with one
non-body entity). -/
def exR : StepParser :=
  ⟨"", "r", [mkEnt 1 "PLANE" "'',#2"]⟩

/-- Witness for C7 at a concrete no-body input: the run writes an empty
report `o/r.txt` as its final effect. -/
theorem C7_report_file_witness :
    StepParser.parse "r" "DATA;\n#1 = PLANE('',#2);\nENDSEC;" = Except.ok exR
    ∧ splitRun "r" "DATA;\n#1 = PLANE('',#2);\nENDSEC;" "o" "T"
        = Except.ok [Effect.mkdir "o", Effect.writeFile "o/r.txt" ""]
    ∧ [Effect.mkdir "o", Effect.writeFile "o/r.txt" ""].getLast?
        = some (Effect.writeFile ("o" ++ "/" ++ "r" ++ ".txt")
          (joinSep "\n" ((((StepSplitter.split exR "T").report).insertionSort rowLe).map
            (fun q => q.1 ++ ";" ++ toString q.2))))
    ∧ ((StepSplitter.split exR "T").report = []
      ∧ [Effect.mkdir "o", Effect.writeFile "o/r.txt" ""].getLast?
          = some (Effect.writeFile ("o" ++ "/" ++ "r" ++ ".txt") "")) :=
  ⟨by rfl, by rfl,
   (C7_report_file "r" "DATA;\n#1 = PLANE('',#2);\nENDSEC;" "o" "T" exR
      [Effect.mkdir "o", Effect.writeFile "o/r.txt" ""] (by rfl) (by rfl)).1,
   (C7_report_file "r" "DATA;\n#1 = PLANE('',#2);\nENDSEC;" "o" "T" exR
      [Effect.mkdir "o", Effect.writeFile "o/r.txt" ""] (by rfl) (by rfl)).2.2.2.2.2
     (by decide) (by decide)⟩

/-! ## Timestamp-independence lemmas (for the determinism claim) -/

theorem split_assembly_report_t (p : StepParser) (bn t1 t2 : String) :
    (StepSplitter.split_assembly p bn t1).report
      = (StepSplitter.split_assembly p bn t2).report := by
  unfold StepSplitter.split_assembly
  simp only [List.map_map]
  rfl

theorem mvLoop_report_t (p : StepParser) (bn t1 t2 : String) :
    ∀ (gs : List (String × List Nat)) (uc : Nat) (used : List (String × Nat)),
    (StepSplitter.mvLoop p bn t1 gs uc used).report
      = (StepSplitter.mvLoop p bn t2 gs uc used).report := by
  intro gs
  induction gs with
  | nil => intro uc used; rfl
  | cons g rest ih =>
    intro uc used
    simp only [StepSplitter.mvLoop]
    rw [ih]

theorem split_report_t (p : StepParser) (t1 t2 : String) :
    (StepSplitter.split p t1).report = (StepSplitter.split p t2).report := by
  unfold StepSplitter.split
  dsimp only
  by_cases h1 : (p.find_entities_by_type "NEXT_ASSEMBLY_USAGE_OCCURRENCE").isEmpty = true
  · simp only [h1, not_true, if_false]
    by_cases h2 : (p.find_entities_by_type "MANIFOLD_SOLID_BREP").length > 1
    · simp only [h2, if_true]
      unfold StepSplitter.split_multi_volume_part
      exact mvLoop_report_t p p.originalFilename t1 t2 _ 1 []
    · simp only [h2, if_false]
      cases hs : p.find_entities_by_type "MANIFOLD_SOLID_BREP" with
      | nil => rfl
      | cons a u =>
        cases u with
        | nil => rfl
        | cons b v => rfl
  · simp only [h1, if_true]
    exact split_assembly_report_t p p.originalFilename t1 t2

theorem split_assembly_files_shape (p : StepParser) (bn : String) :
    ∃ specs : List (String × String × List Nat), ∀ t,
      (StepSplitter.split_assembly p bn t).files
        = specs.map (fun q => (q.1, StepWriter.contentOf q.2.1 q.2.2 p t)) := by
  refine ⟨(groupByHash (((p.find_entities_by_type "MANIFOLD_SOLID_BREP").map
      (fun s => (s, StepSplitter.assemblySolidInfo p bn s))).map
        (fun q => (GeometryHasher.compute_geometry_hash p q.1, q)))).map (fun g =>
      (StepSplitter.sanitize_filename (g.2.headD (0, ("", 0))).2.1 ++ ".stp",
       (g.2.headD (0, ("", 0))).2.1,
       StepSplitter.collect_solid_dependencies p (g.2.headD (0, ("", 0))).1)), fun t => ?_⟩
  unfold StepSplitter.split_assembly
  simp only [List.map_map]
  rfl

theorem mvLoop_files_shape (p : StepParser) (bn : String) :
    ∀ (gs : List (String × List Nat)) (uc : Nat) (used : List (String × Nat)),
    ∃ specs : List (String × String × List Nat), ∀ t,
      (StepSplitter.mvLoop p bn t gs uc used).files
        = specs.map (fun q => (q.1, StepWriter.contentOf q.2.1 q.2.2 p t)) := by
  intro gs
  induction gs with
  | nil => intro uc used; exact ⟨[], fun t => rfl⟩
  | cons g rest ih =>
    intro uc used
    obtain ⟨specs', h'⟩ := ih (uc + 1) (StepSplitter.mvNameStep p bn uc (g.2.headD 0) used).2.2
    refine ⟨((StepSplitter.mvNameStep p bn uc (g.2.headD 0) used).2.1 ++ ".stp",
             (StepSplitter.mvNameStep p bn uc (g.2.headD 0) used).1,
             StepSplitter.collect_solid_dependencies p (g.2.headD 0)) :: specs', fun t => ?_⟩
    simp only [StepSplitter.mvLoop, List.map_cons]
    rw [h' t]

theorem split_files_shape (p : StepParser) :
    ∃ specs : List (String × String × List Nat), ∀ t,
      (StepSplitter.split p t).files
        = specs.map (fun q => (q.1, StepWriter.contentOf q.2.1 q.2.2 p t)) := by
  unfold StepSplitter.split
  by_cases h1 : (p.find_entities_by_type "NEXT_ASSEMBLY_USAGE_OCCURRENCE").isEmpty
  · by_cases h2 : 1 < (p.find_entities_by_type "MANIFOLD_SOLID_BREP").length
    · obtain ⟨specs, hspecs⟩ := mvLoop_files_shape p p.originalFilename
        (groupByHash ((p.find_entities_by_type "MANIFOLD_SOLID_BREP").map
          (fun s => (GeometryHasher.compute_geometry_hash p s, s)))) 1 []
      refine ⟨specs, fun t => ?_⟩
      simp only [h1, h2, not_true, if_false, if_true, gt_iff_lt]
      unfold StepSplitter.split_multi_volume_part
      exact hspecs t
    · cases hs : p.find_entities_by_type "MANIFOLD_SOLID_BREP" with
      | nil =>
        refine ⟨[], fun t => ?_⟩
        simp [h1, hs]
      | cons a u =>
        cases u with
        | nil =>
          refine ⟨[(StepSplitter.sanitize_filename
              (match StepSplitter.get_solid_name p a with
               | some n => n
               | none =>
                 match StepSplitter.find_product_for_solid p a with
                 | some n => n
                 | none => p.originalFilename ++ "_1") ++ ".stp",
              (match StepSplitter.get_solid_name p a with
               | some n => n
               | none =>
                 match StepSplitter.find_product_for_solid p a with
                 | some n => n
                 | none => p.originalFilename ++ "_1"),
              StepSplitter.collect_solid_dependencies p a)], fun t => ?_⟩
          rw [hs] at h2
          simp only [h1, hs, not_true, if_false]
          unfold StepSplitter.export_single_part
          simp [h2]
        | cons b v =>
          exfalso
          rw [hs] at h2
          simp at h2
  · obtain ⟨specs, hspecs⟩ := split_assembly_files_shape p p.originalFilename
    refine ⟨specs, fun t => ?_⟩
    simp only [h1, if_true, not_false_iff]
    exact hspecs t

/-- C8: the pipeline is deterministic modulo the timestamp.
`compute_geometry_hash`, the grouping and the report take no timestamp at
all (`datetime.now()` reaches only `write_step_file`), so two runs on the
same input produce identical fingerprints, identical grouping, and a
byte-identical report; the emitted STEP files of two runs come from one
timestamp-independent list of (filename, part name, entity set) triples,
and two `write_step_file` outputs for the same triple have the same
number of lines and agree on every line except line index 3, the
`FILE_NAME` line carrying the timestamp. -/
theorem C8_determinism_modulo_timestamp :
    (∀ (name : String) (S : List Nat) (p : StepParser) (t1 t2 : String),
      (StepWriter.write_step_file name S p t1).length
        = (StepWriter.write_step_file name S p t2).length
      ∧ (∀ i, i ≠ 3 →
          (StepWriter.write_step_file name S p t1).get? i
            = (StepWriter.write_step_file name S p t2).get? i))
    ∧ (∀ (p : StepParser) (t1 t2 : String),
      (StepSplitter.split p t1).report = (StepSplitter.split p t2).report)
    ∧ (∀ (p : StepParser) (outDir bn t1 t2 : String),
      StepSplitter.write_report outDir bn (StepSplitter.split p t1).report
        = StepSplitter.write_report outDir bn (StepSplitter.split p t2).report)
    ∧ (∀ p : StepParser, ∃ specs : List (String × String × List Nat), ∀ t,
      (StepSplitter.split p t).files
        = specs.map (fun q => (q.1, StepWriter.contentOf q.2.1 q.2.2 p t))) := by
  refine ⟨?_, split_report_t, ?_, split_files_shape⟩
  · intro name S p t1 t2
    constructor
    · simp [StepWriter.write_step_file]
    · intro i hi
      match i with
      | 0 => rfl
      | 1 => rfl
      | 2 => rfl
      | 3 => exact absurd rfl hi
      | n + 4 => rfl
  · intro p outDir bn t1 t2
    rw [split_report_t p t1 t2]

/-- Witness for C8 at `exW1` with timestamps `T1` and `T2`: equal line
counts, equal line 0, equal reports and report files, and a shared
timestamp-independent file-shape list. -/
theorem C8_determinism_modulo_timestamp_witness :
    ((StepWriter.write_step_file "A" [1, 2] exW1 "T1").length
        = (StepWriter.write_step_file "A" [1, 2] exW1 "T2").length
      ∧ (StepWriter.write_step_file "A" [1, 2] exW1 "T1").get? 0
          = (StepWriter.write_step_file "A" [1, 2] exW1 "T2").get? 0)
    ∧ (StepSplitter.split exW1 "T1").report = (StepSplitter.split exW1 "T2").report
    ∧ StepSplitter.write_report "o" "W1" (StepSplitter.split exW1 "T1").report
        = StepSplitter.write_report "o" "W1" (StepSplitter.split exW1 "T2").report
    ∧ (∃ specs : List (String × String × List Nat), ∀ t,
      (StepSplitter.split exW1 t).files
        = specs.map (fun q => (q.1, StepWriter.contentOf q.2.1 q.2.2 exW1 t))) :=
  ⟨⟨(C8_determinism_modulo_timestamp.1 "A" [1, 2] exW1 "T1" "T2").1,
    (C8_determinism_modulo_timestamp.1 "A" [1, 2] exW1 "T1" "T2").2 0 (by decide)⟩,
   C8_determinism_modulo_timestamp.2.1 exW1 "T1" "T2",
   C8_determinism_modulo_timestamp.2.2.1 exW1 "o" "W1" "T1" "T2",
   C8_determinism_modulo_timestamp.2.2.2 exW1⟩

/-! ## C1 support: digit rendering -/

theorem digitChar_isDigit (d : Nat) (h : d < 10) : (Nat.digitChar d).isDigit = true := by
  interval_cases d <;> decide

theorem digitChar_toNat (d : Nat) (h : d < 10) : (Nat.digitChar d).toNat - 48 = d := by
  interval_cases d <;> decide

theorem natCharsAux_digits :
    forall (fuel n : Nat) (c : Char), c ∈ natCharsAux fuel n → c.isDigit = true := by
  intro fuel
  induction fuel with
  | zero => intro n c h; simp [natCharsAux] at h
  | succ f ih =>
    intro n c h
    rcases n with _ | m
    · simp [natCharsAux] at h
    · rw [natCharsAux] at h
      rcases List.mem_cons.mp h with rfl | h1
      · exact digitChar_isDigit _ (Nat.mod_lt _ (by omega))
      · exact ih _ _ h1

theorem natChars_digits (n : Nat) : ∀ c ∈ natChars n, c.isDigit = true := by
  intro c h
  unfold natChars at h
  split at h
  · simp at h; subst h; decide
  · exact natCharsAux_digits _ _ _ (List.mem_reverse.mp h)

theorem natChars_ne_nil (n : Nat) : natChars n ≠ [] := by
  unfold natChars
  split
  · simp
  · rcases n with _ | m
    · simp_all
    · rw [natCharsAux]; simp

theorem digitsVal_concat (l : List Char) (c : Char) :
    digitsVal (l ++ [c]) = digitsVal l * 10 + (c.toNat - 48) := by
  simp [digitsVal, List.foldl_append]

theorem digitsVal_natCharsAux :
    ∀ (fuel n : Nat), n ≤ fuel → digitsVal (natCharsAux fuel n).reverse = n := by
  intro fuel
  induction fuel with
  | zero =>
    intro n h
    have : n = 0 := by omega
    subst this
    simp [natCharsAux, digitsVal]
  | succ f ih =>
    intro n h
    rcases n with _ | m
    · simp [natCharsAux, digitsVal]
    · rw [natCharsAux, List.reverse_cons, digitsVal_concat]
      have hdiv : (m + 1) / 10 ≤ f := by
        have := Nat.div_lt_self (Nat.succ_pos m) (by norm_num : 1 < 10)
        omega
      rw [ih _ hdiv, digitChar_toNat _ (Nat.mod_lt _ (by omega))]
      have := Nat.div_add_mod (m + 1) 10
      omega

theorem digitsVal_natChars (n : Nat) : digitsVal (natChars n) = n := by
  unfold natChars
  split
  · rename_i h
    subst h
    decide
  · exact digitsVal_natCharsAux n n le_rfl

/-! ## C1 support: scanner equations -/

theorem refScanF_cons (fuel : Nat) (c : Char) (rest : List Char) :
    refScanF (fuel + 1) (c :: rest) =
      if c = '#' then
        (if (rest.takeWhile Char.isDigit).isEmpty then refScanF fuel rest
         else digitsVal (rest.takeWhile Char.isDigit)
            :: refScanF fuel (rest.dropWhile Char.isDigit))
      else refScanF fuel rest := by
  by_cases hc : c = '#'
  · subst hc
    rw [if_pos rfl]
    rfl
  · rw [if_neg hc]
    rw [refScanF.eq_def]
    split
    · omega
    · simp_all
    · simp_all
    · simp_all

theorem refSubF_cons (f : Nat → Option Nat) (fuel : Nat) (c : Char) (rest : List Char) :
    refSubF f (fuel + 1) (c :: rest) =
      if c = '#' then
        (if (rest.takeWhile Char.isDigit).isEmpty then '#' :: refSubF f fuel rest
         else
           (match f (digitsVal (rest.takeWhile Char.isDigit)) with
            | some k => '#' :: natChars k
            | none => '#' :: rest.takeWhile Char.isDigit)
             ++ refSubF f fuel (rest.dropWhile Char.isDigit))
      else c :: refSubF f fuel rest := by
  by_cases hc : c = '#'
  · subst hc
    rw [if_pos rfl]
    rfl
  · rw [if_neg hc]
    rw [refSubF.eq_def]
    split
    · omega
    · simp_all
    · simp_all
    · simp_all

theorem dropWhile_len_le (p : Char → Bool) :
    ∀ l : List Char, (l.dropWhile p).length ≤ l.length := by
  intro l
  induction l with
  | nil => simp
  | cons a t ih =>
    rw [List.dropWhile_cons]
    split
    · simpa using Nat.le_succ_of_le ih
    · simp

theorem refScanF_fuel_eq :
    ∀ (f1 : Nat) (l : List Char) (f2 : Nat), l.length ≤ f1 → l.length ≤ f2 →
      refScanF f1 l = refScanF f2 l := by
  intro f1
  induction f1 with
  | zero =>
    intro l f2 h1 _
    have : l = [] := List.eq_nil_of_length_eq_zero (by omega)
    subst this
    cases f2 <;> rfl
  | succ g ih =>
    intro l f2 h1 h2
    cases l with
    | nil => cases f2 <;> rfl
    | cons c rest =>
      cases f2 with
      | zero => simp at h2
      | succ k =>
        rw [refScanF_cons, refScanF_cons]
        have hr : rest.length ≤ g := by simp at h1; omega
        have hr2 : rest.length ≤ k := by simp at h2; omega
        by_cases hc : c = '#'
        · rw [if_pos hc, if_pos hc]
          by_cases hds : (rest.takeWhile Char.isDigit).isEmpty = true
          · rw [if_pos hds, if_pos hds]
            exact ih rest k hr hr2
          · rw [if_neg hds, if_neg hds]
            have hd := dropWhile_len_le Char.isDigit rest
            congr 1
            exact ih _ k (le_trans hd hr) (le_trans hd hr2)
        · rw [if_neg hc, if_neg hc]
          exact ih rest k hr hr2

theorem refSubF_fuel_eq (f : Nat → Option Nat) :
    ∀ (f1 : Nat) (l : List Char) (f2 : Nat), l.length ≤ f1 → l.length ≤ f2 →
      refSubF f f1 l = refSubF f f2 l := by
  intro f1
  induction f1 with
  | zero =>
    intro l f2 h1 _
    have : l = [] := List.eq_nil_of_length_eq_zero (by omega)
    subst this
    cases f2 <;> rfl
  | succ g ih =>
    intro l f2 h1 h2
    cases l with
    | nil => cases f2 <;> rfl
    | cons c rest =>
      cases f2 with
      | zero => simp at h2
      | succ k =>
        rw [refSubF_cons, refSubF_cons]
        have hr : rest.length ≤ g := by simp at h1; omega
        have hr2 : rest.length ≤ k := by simp at h2; omega
        by_cases hc : c = '#'
        · rw [if_pos hc, if_pos hc]
          by_cases hds : (rest.takeWhile Char.isDigit).isEmpty = true
          · rw [if_pos hds, if_pos hds, ih rest k hr hr2]
          · rw [if_neg hds, if_neg hds]
            have hd := dropWhile_len_le Char.isDigit rest
            congr 1
            exact ih _ k (le_trans hd hr) (le_trans hd hr2)
        · rw [if_neg hc, if_neg hc, ih rest k hr hr2]

theorem refScan_cons (c : Char) (rest : List Char) :
    refScan (c :: rest) =
      if c = '#' then
        (if (rest.takeWhile Char.isDigit).isEmpty then refScan rest
         else digitsVal (rest.takeWhile Char.isDigit)
            :: refScan (rest.dropWhile Char.isDigit))
      else refScan rest := by
  show refScanF (c :: rest).length (c :: rest) = _
  rw [List.length_cons, refScanF_cons]
  by_cases hc : c = '#'
  · rw [if_pos hc, if_pos hc]
    by_cases hds : (rest.takeWhile Char.isDigit).isEmpty = true
    · rw [if_pos hds, if_pos hds]
      rfl
    · rw [if_neg hds, if_neg hds]
      congr 1
      exact refScanF_fuel_eq _ _ _ (dropWhile_len_le _ rest) le_rfl
  · rw [if_neg hc, if_neg hc]
    rfl

theorem refSub_cons (f : Nat → Option Nat) (c : Char) (rest : List Char) :
    refSub f (c :: rest) =
      if c = '#' then
        (if (rest.takeWhile Char.isDigit).isEmpty then '#' :: refSub f rest
         else
           (match f (digitsVal (rest.takeWhile Char.isDigit)) with
            | some k => '#' :: natChars k
            | none => '#' :: rest.takeWhile Char.isDigit)
             ++ refSub f (rest.dropWhile Char.isDigit))
      else c :: refSub f rest := by
  show refSubF f (c :: rest).length (c :: rest) = _
  rw [List.length_cons, refSubF_cons]
  by_cases hc : c = '#'
  · rw [if_pos hc, if_pos hc]
    by_cases hds : (rest.takeWhile Char.isDigit).isEmpty = true
    · rw [if_pos hds, if_pos hds]
      rfl
    · rw [if_neg hds, if_neg hds]
      congr 1
      exact refSubF_fuel_eq _ _ _ _ (dropWhile_len_le _ rest) le_rfl
  · rw [if_neg hc, if_neg hc]
    rfl

/-! ## C1 support: takeWhile and head facts -/

theorem takeWhile_nil_of_head (p : Char → Bool) (l : List Char)
    (h : ∀ c, l.head? = some c → p c = false) : l.takeWhile p = [] := by
  cases l with
  | nil => rfl
  | cons a t =>
    rw [List.takeWhile_cons, if_neg]
    simp [h a rfl]

theorem head_not_of_takeWhile_empty (p : Char → Bool) (l : List Char)
    (h : (l.takeWhile p).isEmpty = true) :
    ∀ c, l.head? = some c → p c = false := by
  intro c hc
  cases l with
  | nil => simp at hc
  | cons a t =>
    simp at hc
    subst hc
    by_contra hp
    simp at hp
    rw [List.takeWhile_cons, if_pos hp] at h
    simp at h

theorem dropWhile_head_not (p : Char → Bool) :
    ∀ (l : List Char) (c : Char), (l.dropWhile p).head? = some c → p c = false := by
  intro l
  induction l with
  | nil => intro c h; simp at h
  | cons a t ih =>
    intro c h
    by_cases hp : p a = true
    · rw [List.dropWhile_cons, if_pos hp] at h
      exact ih c h
    · rw [List.dropWhile_cons, if_neg hp] at h
      simp at h
      subst h
      simpa using hp

theorem takeWhile_append_not (p : Char → Bool) :
    ∀ (ds rest : List Char), (∀ c ∈ ds, p c = true) →
      (∀ c, rest.head? = some c → p c = false) →
      (ds ++ rest).takeWhile p = ds ∧ (ds ++ rest).dropWhile p = rest := by
  intro ds
  induction ds with
  | nil =>
    intro rest _ h2
    refine ⟨takeWhile_nil_of_head p rest h2, ?_⟩
    cases rest with
    | nil => rfl
    | cons c r =>
      rw [List.nil_append, List.dropWhile_cons, if_neg]
      simp [h2 c rfl]
  | cons d t ih =>
    intro rest h1 h2
    have hd : p d = true := h1 d (List.mem_cons_self d t)
    obtain ⟨ht, hdrop⟩ := ih rest (fun c hc => h1 c (List.mem_cons_of_mem _ hc)) h2
    constructor
    · rw [List.cons_append, List.takeWhile_cons, if_pos hd, ht]
    · rw [List.cons_append, List.dropWhile_cons, if_pos hd, hdrop]

theorem refSub_head (f : Nat → Option Nat) (l : List Char) :
    (refSub f l).head? = l.head? := by
  cases l with
  | nil => rfl
  | cons c rest =>
    rw [refSub_cons]
    by_cases hc : c = '#'
    · subst hc
      rw [if_pos rfl]
      by_cases hds : (rest.takeWhile Char.isDigit).isEmpty = true
      · rw [if_pos hds]
        rfl
      · rw [if_neg hds]
        cases hm : f (digitsVal (rest.takeWhile Char.isDigit)) <;>
          simp [List.cons_append]
    · rw [if_neg hc]
      rfl

/-! ## C1 support: the scan of a substituted line -/

theorem refScan_refSub_aux (f : Nat → Option Nat) :
    ∀ (N : Nat) (l : List Char), l.length ≤ N →
      refScan (refSub f l) = (refScan l).map (fun n => (f n).getD n) := by
  intro N
  induction N with
  | zero =>
    intro l h
    have : l = [] := List.eq_nil_of_length_eq_zero (by omega)
    subst this
    rfl
  | succ N ih =>
    intro l h
    cases l with
    | nil => rfl
    | cons c rest =>
      have hrest : rest.length ≤ N := by simp at h; omega
      by_cases hc : c = '#'
      · subst hc
        by_cases hds : (rest.takeWhile Char.isDigit).isEmpty = true
        · rw [refSub_cons, if_pos rfl, if_pos hds]
          have hh : ∀ c', (refSub f rest).head? = some c' → c'.isDigit = false := by
            intro c' hc'
            rw [refSub_head] at hc'
            exact head_not_of_takeWhile_empty _ rest hds c' hc'
          rw [refScan_cons, if_pos rfl, takeWhile_nil_of_head _ _ hh]
          simp only [List.isEmpty_nil, if_true]
          rw [ih rest hrest, refScan_cons, if_pos rfl, if_pos hds]
        · rw [refSub_cons, if_pos rfl, if_neg hds]
          have hnd : ∀ c', (rest.dropWhile Char.isDigit).head? = some c' →
              c'.isDigit = false := dropWhile_head_not _ rest
          have hlen : (rest.dropWhile Char.isDigit).length ≤ N :=
            le_trans (dropWhile_len_le _ rest) hrest
          cases hm : f (digitsVal (rest.takeWhile Char.isDigit)) with
          | some k =>
            rw [List.cons_append, refScan_cons, if_pos rfl]
            have hsp := takeWhile_append_not Char.isDigit (natChars k)
              (refSub f (rest.dropWhile Char.isDigit)) (natChars_digits k)
              (fun c' hc' => hnd c' (by rwa [refSub_head] at hc'))
            rw [hsp.1, hsp.2]
            have hne : (natChars k).isEmpty = false := by
              cases hnc : natChars k
              · exact absurd hnc (natChars_ne_nil k)
              · rfl
            simp only [hne, Bool.false_eq_true, if_false]
            rw [digitsVal_natChars, ih _ hlen, refScan_cons, if_pos rfl, if_neg hds]
            simp [hm]
          | none =>
            rw [List.cons_append, refScan_cons, if_pos rfl]
            have hdig : ∀ c' ∈ rest.takeWhile Char.isDigit, c'.isDigit = true :=
              fun c' hc' => List.mem_takeWhile_imp hc'
            have hsp := takeWhile_append_not Char.isDigit (rest.takeWhile Char.isDigit)
              (refSub f (rest.dropWhile Char.isDigit)) hdig
              (fun c' hc' => hnd c' (by rwa [refSub_head] at hc'))
            rw [hsp.1, hsp.2]
            have hne : (rest.takeWhile Char.isDigit).isEmpty = false := by
              cases hb : (rest.takeWhile Char.isDigit).isEmpty
              · rfl
              · exact absurd hb hds
            simp only [hne, Bool.false_eq_true, if_false]
            rw [ih _ hlen, refScan_cons, if_pos rfl, if_neg hds]
            simp [hm]
      · rw [refSub_cons, if_neg hc, refScan_cons, if_neg hc,
          refScan_cons, if_neg hc]
        exact ih rest hrest

theorem refScan_refSub (f : Nat → Option Nat) (l : List Char) :
    refScan (refSub f l) = (refScan l).map (fun n => (f n).getD n) :=
  refScan_refSub_aux f l.length l le_rfl

/-! ## C1 support: head ids of emitted lines -/

theorem asString_data (l : List Char) : (List.asString l).data = l := rfl

theorem headedBy_spec (i : Nat) (s : String) (h : headedBy i s = true) :
    ∃ rest, s.data = '#' :: (natChars i ++ rest) ∧
      (∀ c, rest.head? = some c → c.isDigit = false) := by
  unfold headedBy at h
  cases hd : s.data with
  | nil => rw [hd] at h; simp at h
  | cons c r =>
    rw [hd] at h
    simp at h
    obtain ⟨hc, hr⟩ := h
    subst hc
    refine ⟨r.dropWhile Char.isDigit, ?_, dropWhile_head_not _ r⟩
    rw [← hr, List.takeWhile_append_dropWhile]

theorem headId_of_head_ne (s : String) (c : Char) (h : s.data.head? = some c)
    (hc : c ≠ '#') : headId s = none := by
  unfold headId
  cases hd : s.data with
  | nil => rfl
  | cons x r =>
    rw [hd] at h
    simp at h
    subst h
    simp [hc]

theorem data_head_append (a b : String) (c : Char) (hc : a.data.head? = some c) :
    (a ++ b).data.head? = some c := by
  rw [String.data_append]
  cases hd : a.data with
  | nil => rw [hd] at hc; simp at hc
  | cons x r =>
    rw [hd] at hc
    simpa using hc

theorem headId_of_renumber (m : Nat → Option Nat) (i k : Nat) (s : String)
    (hh : headedBy i s = true) (hm : m i = some k) :
    headId (StepWriter.renumber_references m s) = some k := by
  obtain ⟨rest, hdata, hnd⟩ := headedBy_spec i s hh
  unfold StepWriter.renumber_references
  rw [hdata]
  have hsp := takeWhile_append_not Char.isDigit (natChars i) rest
    (natChars_digits i) hnd
  rw [refSub_cons, if_pos rfl, hsp.1, hsp.2]
  have hne : (natChars i).isEmpty = false := by
    cases hnc : natChars i
    · exact absurd hnc (natChars_ne_nil i)
    · rfl
  simp only [hne, Bool.false_eq_true, if_false]
  rw [digitsVal_natChars, hm]
  unfold headId
  rw [asString_data, List.cons_append]
  have hnd2 : ∀ c, (refSub (fun n => m n) rest).head? = some c → c.isDigit = false := by
    intro c hc
    rw [refSub_head] at hc
    exact hnd c hc
  have hsp2 := takeWhile_append_not Char.isDigit (natChars k)
    (refSub (fun n => m n) rest) (natChars_digits k) hnd2
  have hnek : (natChars k).isEmpty = false := by
    cases hnc : natChars k
    · exact absurd hnc (natChars_ne_nil k)
    · rfl
  simp only [hsp2.1, hnek, Bool.false_eq_true, if_false, reduceIte]
  rw [digitsVal_natChars]

/-! ## C1 support: the id mapping -/

theorem enumFrom_find?_eq :
    ∀ (l : List Nat) (s k x : Nat), l.Nodup → l.get? k = some x →
      (l.enumFrom s).find? (fun q => q.2 == x) = some (s + k, x) := by
  intro l
  induction l with
  | nil => intro s k x _ h; simp at h
  | cons a t ih =>
    intro s k x hnd h
    cases k with
    | zero =>
      simp at h
      subst h
      simp [List.enumFrom, List.find?]
    | succ k2 =>
      rw [List.get?_cons_succ] at h
      have hx : x ∈ t := List.get?_mem h
      have hax : (a == x) = false := by
        simp only [beq_eq_false_iff_ne, ne_eq]
        rintro rfl
        exact (List.nodup_cons.mp hnd).1 hx
      show List.find? _ ((s, a) :: t.enumFrom (s + 1)) = _
      rw [List.find?_cons_of_neg _ (by simpa using hax),
        ih (s + 1) k2 x (List.nodup_cons.mp hnd).2 h]
      have : s + 1 + k2 = s + (k2 + 1) := by omega
      rw [this]

theorem idMapping_get (l : List Nat) (k x : Nat) (hnd : l.Nodup)
    (h : l.get? k = some x) : idMapping l x = some (k + 1) := by
  unfold idMapping
  rw [enumFrom_find?_eq l 1 k x hnd h]
  simp [Nat.add_comm]

theorem mem_enumFrom_bounds :
    ∀ (l : List Nat) (s : Nat) (q : Nat × Nat), q ∈ l.enumFrom s →
      s ≤ q.1 ∧ q.1 < s + l.length ∧ q.2 ∈ l := by
  intro l
  induction l with
  | nil => intro s q h; simp at h
  | cons a t ih =>
    intro s q h
    rcases List.mem_cons.mp h with rfl | h1
    · simp
    · obtain ⟨h2, h3, h4⟩ := ih (s + 1) q h1
      refine ⟨by omega, by simp only [List.length_cons]; omega, List.mem_cons_of_mem _ h4⟩

theorem idMapping_bounds (l : List Nat) (x k : Nat) (h : idMapping l x = some k) :
    1 ≤ k ∧ k ≤ l.length ∧ x ∈ l := by
  unfold idMapping at h
  cases hf : (l.enumFrom 1).find? (fun q => q.2 == x) with
  | none => rw [hf] at h; simp at h
  | some q =>
    rw [hf] at h
    simp at h
    have hq := List.mem_of_find?_eq_some hf
    have hb := mem_enumFrom_bounds l 1 q hq
    have hqx : q.2 = x := by simpa using List.find?_some hf
    subst h
    exact ⟨hb.1, by omega, hqx ▸ hb.2.2⟩

theorem idMapping_isSome (l : List Nat) (x : Nat) (hnd : l.Nodup) (hx : x ∈ l) :
    ∃ k, idMapping l x = some k := by
  obtain ⟨n, hn⟩ := List.mem_iff_get?.mp hx
  exact ⟨n + 1, idMapping_get l n x hnd hn⟩

/-! ## C1 support: `sortNats` is sorted and duplicate-free -/

theorem setInsert_mem (x : Nat) :
    ∀ (l : List Nat) (y : Nat), y ∈ setInsert x l ↔ y = x ∨ y ∈ l := by
  intro l
  induction l with
  | nil => intro y; simp [setInsert]
  | cons a t ih =>
    intro y
    simp only [setInsert]
    split_ifs with h1 h2
    · simp [List.mem_cons]
    · subst h2
      simp [List.mem_cons]
    · simp only [List.mem_cons, ih]
      tauto

theorem setInsert_head (x : Nat) (l : List Nat) :
    (setInsert x l).head? = some x ∨ (setInsert x l).head? = l.head? := by
  cases l with
  | nil => left; rfl
  | cons a t =>
    simp only [setInsert]
    split_ifs with h1 h2
    · left; rfl
    · right; rfl
    · right; rfl

theorem setInsert_chain (x : Nat) :
    ∀ (l : List Nat), l.Chain' (· < ·) → (setInsert x l).Chain' (· < ·) := by
  intro l
  induction l with
  | nil => intro _; simp [setInsert]
  | cons a t ih =>
    intro h
    simp only [setInsert]
    split_ifs with h1 h2
    · exact List.chain'_cons.mpr ⟨h1, h⟩
    · exact h
    · have hh := List.chain'_cons'.mp h
      refine List.chain'_cons'.mpr ⟨?_, ih hh.2⟩
      intro y hy
      rcases setInsert_head x t with hs | hs
      · rw [hs] at hy
        simp at hy
        subst hy
        omega
      · rw [hs] at hy
        exact hh.1 y hy

theorem foldl_setInsert_chain :
    ∀ (l acc : List Nat), acc.Chain' (· < ·) →
      (l.foldl (fun a x => setInsert x a) acc).Chain' (· < ·) := by
  intro l
  induction l with
  | nil => intro acc h; exact h
  | cons a t ih => intro acc h; exact ih _ (setInsert_chain a acc h)

theorem sortNats_chain (l : List Nat) : (sortNats l).Chain' (· < ·) :=
  foldl_setInsert_chain l [] (by simp)

theorem foldl_setInsert_mem :
    ∀ (l acc : List Nat) (y : Nat),
      y ∈ l.foldl (fun a x => setInsert x a) acc ↔ y ∈ acc ∨ y ∈ l := by
  intro l
  induction l with
  | nil => intro acc y; simp
  | cons a t ih =>
    intro acc y
    show y ∈ t.foldl _ (setInsert a acc) ↔ _
    rw [ih (setInsert a acc) y, setInsert_mem]
    simp [List.mem_cons]
    tauto

theorem sortNats_mem (l : List Nat) (y : Nat) : y ∈ sortNats l ↔ y ∈ l := by
  unfold sortNats
  rw [foldl_setInsert_mem]
  simp

theorem sortNats_nodup (l : List Nat) : (sortNats l).Nodup :=
  ((List.chain'_iff_pairwise).mp (sortNats_chain l)).imp (fun h => Nat.ne_of_lt h)

/-! ## C1 support: heads of the emitted record block -/

theorem heads_aux (p : StepParser) (m : Nat → Option Nat) :
    ∀ (ids : List Nat) (k : Nat),
      (∀ (j x : Nat), ids.get? j = some x → ∃ e, p.lookup x = some e ∧
          headedBy x e.full_line = true ∧ m x = some (k + j + 1)) →
      (ids.filterMap (fun old => (p.lookup old).map
          (fun e => StepWriter.renumber_references m e.full_line))).filterMap headId
        = List.range' (k + 1) ids.length := by
  intro ids
  induction ids with
  | nil => intro k _; rfl
  | cons x rest ih =>
    intro k hpos
    obtain ⟨e, he, hhb, hm⟩ := hpos 0 x rfl
    have hid := headId_of_renumber m x (k + 1) e.full_line hhb hm
    simp only [List.filterMap_cons, he, Option.map_some', hid]
    rw [ih (k + 1) ?_]
    · rfl
    · intro j y hj
      obtain ⟨e2, he2, hb2, hm2⟩ := hpos (j + 1) y (by rw [List.get?_cons_succ]; exact hj)
      refine ⟨e2, he2, hb2, ?_⟩
      rw [hm2]
      congr 1
      omega

/-- C1: when every id selected for an output file resolves to a parsed
entity, whose record line is headed by its own id, the emitted data
section's record heads are exactly `#1 … #N` in order; and when the
selected set is additionally closed under references into present
entities, every reference token of an emitted record either lands in
`1 … N` or is an unresolvable (dangling) reference carried over
verbatim. -/
theorem C1_amended_renumbering (name ts : String) (S : List Nat) (p : StepParser)
    (hpres : ∀ i ∈ sortNats S, (p.lookup i).isSome = true)
    (hhead : ∀ i ∈ sortNats S,
      ((p.lookup i).all (fun e => headedBy i e.full_line)) = true)
    (hclosed : ∀ i ∈ sortNats S, ((p.lookup i).all (fun e =>
        (refScan e.full_line.data).all
          (fun r => !(p.present r) || (sortNats S).contains r))) = true) :
    recordHeads (StepWriter.write_step_file name S p ts)
        = List.range' 1 (sortNats S).length
    ∧ (∀ i ∈ sortNats S, ∀ e, p.lookup i = some e →
        ∀ r ∈ refScan (StepWriter.renumber_references
            (idMapping (sortNats S)) e.full_line).data,
          (1 ≤ r ∧ r ≤ (sortNats S).length)
          ∨ (r ∈ refScan e.full_line.data ∧ p.lookup r = none)) := by
  constructor
  · unfold recordHeads StepWriter.write_step_file
    rw [List.filterMap_append, List.filterMap_append]
    have h3 : headId ("FILE_NAME('" ++ pyUpper name ++ "','" ++ ts
        ++ "',(''),(''),'STEP SPLITTER','STEP SPLITTER','');") = none :=
      headId_of_head_ne _ 'F'
        (data_head_append _ _ _ (data_head_append _ _ _
          (data_head_append _ _ _ (data_head_append _ _ _ rfl)))) (by decide)
    have h5 : headId (FILE_SCHEMA ++ "));") = none :=
      headId_of_head_ne _ '\'' (data_head_append _ _ _ rfl) (by decide)
    have hH : (["ISO-10303-21;", "HEADER;", "FILE_DESCRIPTION((''),'2;1');",
        "FILE_NAME('" ++ pyUpper name ++ "','" ++ ts
          ++ "',(''),(''),'STEP SPLITTER','STEP SPLITTER','');",
        "FILE_SCHEMA((", FILE_SCHEMA ++ "));", "ENDSEC;",
        "DATA;"].filterMap headId) = [] := by
      simp only [List.filterMap_cons, h3, h5]
      rfl
    have hT : ((["ENDSEC;", "END-ISO-10303-21;"] : List String).filterMap headId)
        = [] := rfl
    have hrec := heads_aux p (idMapping (sortNats S)) (sortNats S) 0 ?_
    · rw [hH, hT, hrec]
      simp
    · intro j x hj
      have hx : x ∈ sortNats S := List.get?_mem hj
      have hs := hpres x hx
      cases he : p.lookup x with
      | none => rw [he] at hs; simp at hs
      | some e =>
        refine ⟨e, rfl, ?_, ?_⟩
        · have hb := hhead x hx
          rw [he] at hb
          simpa using hb
        · rw [idMapping_get (sortNats S) j x (sortNats_nodup S) hj]
          congr 1
          omega
  · intro i hi e he r hr
    unfold StepWriter.renumber_references at hr
    rw [asString_data, refScan_refSub] at hr
    obtain ⟨n, hn, hrn⟩ := List.mem_map.mp hr
    cases hm : idMapping (sortNats S) n with
    | some k =>
      rw [hm] at hrn
      simp at hrn
      subst hrn
      obtain ⟨hb1, hb2, _⟩ := idMapping_bounds (sortNats S) n k hm
      exact Or.inl ⟨hb1, hb2⟩
    | none =>
      rw [hm] at hrn
      simp at hrn
      subst hrn
      refine Or.inr ⟨hn, ?_⟩
      cases hl : p.lookup n with
      | none => rfl
      | some e2 =>
        exfalso
        have hcl := hclosed i hi
        rw [he] at hcl
        simp only [Option.all_some] at hcl
        have hall := List.all_eq_true.mp hcl n hn
        have hpr : p.present n = true := by
          unfold StepParser.present
          rw [hl]
          rfl
        rw [hpr] at hall
        simp at hall
        have hmem : n ∈ sortNats S := by
          simpa using hall
        obtain ⟨k2, hk2⟩ := idMapping_isSome (sortNats S) n (sortNats_nodup S) hmem
        rw [hm] at hk2
        simp at hk2

theorem C1_amended_renumbering_witness :
    (∀ i ∈ sortNats [1, 2], (exW1.lookup i).isSome = true)
    ∧ (∀ i ∈ sortNats [1, 2],
        ((exW1.lookup i).all (fun e => headedBy i e.full_line)) = true)
    ∧ (∀ i ∈ sortNats [1, 2], ((exW1.lookup i).all (fun e =>
        (refScan e.full_line.data).all
          (fun r => !(exW1.present r) || (sortNats [1, 2]).contains r))) = true)
    ∧ (recordHeads (StepWriter.write_step_file "A" [1, 2] exW1 "T")
          = List.range' 1 (sortNats [1, 2]).length
        ∧ (∀ i ∈ sortNats [1, 2], ∀ e, exW1.lookup i = some e →
            ∀ r ∈ refScan (StepWriter.renumber_references
                (idMapping (sortNats [1, 2])) e.full_line).data,
              (1 ≤ r ∧ r ≤ (sortNats [1, 2]).length)
              ∨ (r ∈ refScan e.full_line.data ∧ exW1.lookup r = none))) :=
  ⟨by decide, by decide, by decide,
    C1_amended_renumbering "A" "T" [1, 2] exW1 (by decide) (by decide) (by decide)⟩

end StepSplit
